import Mathlib

/-!
Shallow embedding of the status-line extraction and aggregation pipeline of
`apamax/log_analyzer.py`, together with theorems checking the specification's
claims about it.

Modelling conventions: Python ordered dictionaries become association lists
(`Record`), Python ints become `Int`, Python floats become `ℚ` (the program
only adds, subtracts, divides and compares them), and code that can raise an
exception returns `Except String`.  Each definition carries a comment naming
the source function it embeds.
-/

namespace LogAnalyzer

/-- A Python value as stored in a status dictionary: int, float, str, bool or None. -/
inductive Value where
  | vInt : Int → Value
  | vFloat : ℚ → Value
  | vStr : String → Value
  | vBool : Bool → Value
  | vNone : Value
deriving DecidableEq

/-- Numeric view of a value, as Python arithmetic sees it (a bool counts as 0/1). -/
def Value.toRat? : Value → Option ℚ
  | .vInt n => some (n : ℚ)
  | .vFloat q => some q
  | .vBool b => some (if b then 1 else 0)
  | .vStr _ => none
  | .vNone => none

/-- Python `isinstance(x, float)`. -/
def Value.isFloat : Value → Bool
  | .vFloat _ => true
  | _ => false

/-- Python `isinstance(x, str)`. -/
def Value.isStr : Value → Bool
  | .vStr _ => true
  | _ => false

/-- Python `isinstance(x, int)`; note that Python bools are ints. -/
def Value.isIntLike : Value → Bool
  | .vInt _ => true
  | .vBool _ => true
  | _ => false

/-- An ordered dictionary (Python `dict` / `collections.OrderedDict`) with string
keys, embedded as an association list in insertion order. -/
abbrev Record := List (String × Value)

/-- Keys of an ordered dictionary, in order. -/
def odKeys {α : Type} (d : List (String × α)) : List String := d.map Prod.fst

/-- Python `d.get(k)` / `d[k]`: the value stored at the first occurrence of `k`. -/
def odGet {α : Type} (d : List (String × α)) (k : String) : Option α :=
  (d.find? (fun p => p.1 == k)).map Prod.snd

/-- Ordered-dictionary item assignment `d[k] = v`: replaces the entry in place if
the key is present, otherwise appends it. -/
def odSet {α : Type} : List (String × α) → String → α → List (String × α)
  | [], k, v => [(k, v)]
  | p :: rest, k, v => if p.1 = k then (k, v) :: rest else p :: odSet rest k v

/-- Python `dst.update(src)`: assign every entry of `src` into `dst`, in order. -/
def odUpdate {α : Type} (dst src : List (String × α)) : List (String × α) :=
  src.foldl (fun acc p => odSet acc p.1 p.2) dst

theorem odKeys_odSet {α : Type} (d : List (String × α)) (k : String) (v : α) :
    odKeys (odSet d k v) = if k ∈ odKeys d then odKeys d else odKeys d ++ [k] := by
  simp only [odKeys]
  induction d with
  | nil => simp [odSet]
  | cons p rest ih =>
    by_cases h : p.1 = k
    · simp [odSet, h]
    · have hne : ¬ k = p.1 := fun he => h he.symm
      simp only [odSet, if_neg h, List.map_cons, List.mem_cons, hne, false_or]
      rw [ih]
      by_cases hm : k ∈ List.map Prod.fst rest
      · simp [hm]
      · simp [hm]

theorem odGet_odSet_self {α : Type} (d : List (String × α)) (k : String) (v : α) :
    odGet (odSet d k v) k = some v := by
  induction d with
  | nil => simp [odSet, odGet]
  | cons p rest ih =>
    by_cases h : p.1 = k
    · simp [odSet, odGet, h]
    · simp only [odSet, if_neg h, odGet] at ih ⊢
      rw [List.find?_cons_of_neg _ (by simp [h])]
      exact ih

theorem odGet_odSet_ne {α : Type} (d : List (String × α)) {k k' : String} (v : α)
    (h : k' ≠ k) : odGet (odSet d k v) k' = odGet d k' := by
  induction d with
  | nil =>
    simp only [odSet, odGet]
    rw [List.find?_cons_of_neg _ (by simp [Ne.symm h])]
  | cons p rest ih =>
    by_cases hp : p.1 = k
    · simp only [odSet, if_pos hp, odGet]
      rw [List.find?_cons_of_neg _ (by simp [Ne.symm h]),
          List.find?_cons_of_neg _ (by simp [hp, Ne.symm h])]
    · by_cases hp' : p.1 = k'
      · simp only [odSet, if_neg hp, odGet]
        rw [List.find?_cons_of_pos _ (by simp [hp']), List.find?_cons_of_pos _ (by simp [hp'])]
      · simp only [odSet, if_neg hp, odGet] at ih ⊢
        rw [List.find?_cons_of_neg _ (by simp [hp']), List.find?_cons_of_neg _ (by simp [hp'])]
        exact ih

theorem odGet_odUpdate_not_mem {α : Type} (dst src : List (String × α)) {k : String}
    (h : k ∉ odKeys src) : odGet (odUpdate dst src) k = odGet dst k := by
  induction src generalizing dst with
  | nil => simp [odUpdate]
  | cons p rest ih =>
    simp only [odKeys, List.map_cons, List.mem_cons] at h
    push_neg at h
    have step : odUpdate dst (p :: rest) = odUpdate (odSet dst p.1 p.2) rest := rfl
    rw [step, ih _ h.2, odGet_odSet_ne _ _ h.1]

theorem odGet_odUpdate_mem {α : Type} (dst src : List (String × α)) {k : String}
    (hn : (odKeys src).Nodup) (h : k ∈ odKeys src) :
    odGet (odUpdate dst src) k = odGet src k := by
  induction src generalizing dst with
  | nil => simp [odKeys] at h
  | cons p rest ih =>
    have step : odUpdate dst (p :: rest) = odUpdate (odSet dst p.1 p.2) rest := rfl
    simp only [odKeys, List.map_cons, List.nodup_cons] at hn
    simp only [odKeys, List.map_cons, List.mem_cons] at h
    rcases h with h | h
    · subst h
      rw [step, odGet_odUpdate_not_mem _ _ hn.1, odGet_odSet_self]
      simp only [odGet]
      rw [List.find?_cons_of_pos _ (by simp)]
      rfl
    · have hk : k ≠ p.1 := fun he => hn.1 (he ▸ h)
      rw [step, ih _ hn.2 h]
      simp only [odGet]
      rw [List.find?_cons_of_neg _ (by simp [Ne.symm hk])]

/-! ## Numeric coercion helpers (Python builtins used by the parser) -/

/-- Value of a digit string, most significant digit first. -/
def natFromDigits (cs : List Char) : Nat :=
  cs.foldl (fun a c => 10 * a + (c.toNat - '0'.toNat)) 0

/-- Check that every character is a decimal digit. -/
def allDigits (cs : List Char) : Bool := cs.all (fun c => c.isDigit)

/-- Models the Python builtin `int(s)` on the token grammar this program feeds it:
an optional sign followed by decimal digits; anything else raises `ValueError`,
here `none`. -/
def pyParseInt (s : String) : Option Int :=
  match s.data with
  | '-' :: rest => if rest ≠ [] ∧ allDigits rest then some (-(natFromDigits rest : Int)) else none
  | '+' :: rest => if rest ≠ [] ∧ allDigits rest then some ((natFromDigits rest : Int)) else none
  | cs => if cs ≠ [] ∧ allDigits cs then some ((natFromDigits cs : Int)) else none

/-- Unsigned part of `float(s)`: digits with an optional decimal point, at least
one digit overall. -/
def pyParseFloatCore (cs : List Char) : Option ℚ :=
  let ip := cs.takeWhile (fun c => c ≠ '.')
  match cs.dropWhile (fun c => c ≠ '.') with
  | [] => if ip ≠ [] ∧ allDigits ip then some ((natFromDigits ip : ℚ)) else none
  | _ :: fp =>
    if ('.' ∉ fp) ∧ allDigits ip ∧ allDigits fp ∧ (ip ≠ [] ∨ fp ≠ []) then
      some ((natFromDigits ip : ℚ) + (natFromDigits fp : ℚ) / (10 ^ fp.length))
    else none

/-- Models the Python builtin `float(s)` on the decimal tokens this program feeds
it (the parser only calls it when the token contains a `.`). -/
def pyParseFloat (s : String) : Option ℚ :=
  match s.data with
  | '-' :: rest => (pyParseFloatCore rest).map (fun q => -q)
  | '+' :: rest => pyParseFloatCore rest
  | cs => pyParseFloatCore cs

/-- Python `int(x)` on a float: truncation toward zero. -/
def pyTrunc (q : ℚ) : Int := if 0 ≤ q then ⌊q⌋ else ⌈q⌉

/-! ## StatusLinesDictExtractor.handleLine: the key=value scanner (lines 453-483) -/

/-- Scanner step for `while i < len(m) and m[i] != '='` followed by the
`assert i < len(m)` and `i += 1`: splits off the key and consumes the `=`;
`none` models the `AssertionError` when no `=` is found. -/
def splitKey : List Char → Option (List Char × List Char)
  | [] => none
  | c :: rest =>
    if c = '=' then some ([], rest)
    else match splitKey rest with
      | none => none
      | some p => some (c :: p.1, p.2)

theorem splitKey_length : ∀ {cs k r : List Char}, splitKey cs = some (k, r) → r.length < cs.length := by
  intro cs
  induction cs with
  | nil => intro k r h; simp [splitKey] at h
  | cons c rest ih =>
    intro k r h
    by_cases hc : c = '='
    · rw [show splitKey (c :: rest) = some ([], rest) from by simp [splitKey, hc]] at h
      cases h
      exact Nat.lt_succ_self _
    · rw [show splitKey (c :: rest)
            = match splitKey rest with
              | none => none
              | some p => some (c :: p.1, p.2) from by simp [splitKey, hc]] at h
      cases hsk : splitKey rest with
      | none => rw [hsk] at h; cases h
      | some p =>
        rw [hsk] at h
        cases h
        exact Nat.lt_succ_of_lt (ih (k := p.1) (r := p.2) (by simpa using hsk))

/-- Scanner loop `while i < len(m) and m[i] != endchar`, including the inverted
thousands-separator filter `if endchar != '"' or m[i] != ','` (line 470).
Returns the collected value characters and the remaining input (the terminating
`endchar`, if reached, is left unconsumed, as in the source). -/
def takeVal (e : Char) : List Char → List Char × List Char
  | [] => ([], [])
  | c :: rest =>
    if c = e then ([], c :: rest)
    else
      let p := takeVal e rest
      (if e ≠ '"' ∨ c ≠ ',' then c :: p.1 else p.1, p.2)

theorem takeVal_length (e : Char) : ∀ cs : List Char, (takeVal e cs).2.length ≤ cs.length := by
  intro cs
  induction cs with
  | nil => simp [takeVal]
  | cons c rest ih =>
    by_cases hc : c = e
    · simp [takeVal, hc]
    · simp only [takeVal, if_neg hc]
      exact Nat.le_succ_of_le ih

/-- Token separator skipping `while i < len(m) and m[i] in [' ', '"']` (line 483). -/
def skipSep : List Char → List Char
  | [] => []
  | c :: rest => if c = ' ' ∨ c = '"' then skipSep rest else c :: rest

theorem skipSep_length : ∀ cs : List Char, (skipSep cs).length ≤ cs.length := by
  intro cs
  induction cs with
  | nil => simp [skipSep]
  | cons c rest ih =>
    by_cases hc : c = ' ' ∨ c = '"'
    · simp only [skipSep, if_pos hc]
      exact Nat.le_succ_of_le ih
    · simp [skipSep, hc]

/-- Opportunistic numeric coercion of an unquoted value (lines 474-481):
`try: float if it contains a dot else int; except: keep the string`. -/
def coerceValue (val : String) : Value :=
  if val.data.contains '.' then
    match pyParseFloat val with
    | some q => .vFloat q
    | none => .vStr val
  else
    match pyParseInt val with
    | some n => .vInt n
    | none => .vStr val

/-- One iteration of the scanner loop body (lines 455-482): key up to `=`,
quoted or unquoted value, coercion for unquoted values.  Errors model the
`AssertionError` for a key with no `=` and the `IndexError` when the line ends
right after the `=`. -/
def scanTok (cs : List Char) : Except String ((String × Value) × List Char) :=
  match splitKey cs with
  | none => .error "AssertionError: key without = separator"
  | some kr =>
    match kr.2 with
    | [] => .error "IndexError: string index out of range"
    | c :: rest2 =>
      let endchar : Char := if c = '"' then '"' else ' '
      let p := takeVal endchar (if c = '"' then rest2 else c :: rest2)
      let v : Value := if endchar ≠ '"' then coerceValue (String.mk p.1) else .vStr (String.mk p.1)
      .ok ((String.mk kr.1, v), p.2)

theorem scanTok_length {cs : List Char} {t : String × Value} {rest : List Char}
    (h : scanTok cs = .ok (t, rest)) : rest.length < cs.length := by
  unfold scanTok at h
  split at h
  · simp at h
  next kr hsk =>
    have hkr : kr.2.length < cs.length := splitKey_length (by simpa using hsk)
    split at h
    · simp at h
    next c rest2 hr =>
      simp only [Except.ok.injEq, Prod.mk.injEq] at h
      have e1 : rest.length ≤ (if c = '"' then rest2 else c :: rest2).length := by
        rw [← h.2]
        exact takeVal_length _ _
      have e2 : (if c = '"' then rest2 else c :: rest2).length ≤ rest2.length + 1 := by
        by_cases hc : c = '"' <;> simp [hc]
      have e3 : kr.2.length = rest2.length + 1 := by rw [hr]; rfl
      omega

/-- The whole scanner loop `while i < len(m)` (lines 454-483), accumulating
key/value pairs into the ordered dictionary `d`.  The loop is embedded with an
explicit iteration bound so that it is structurally recursive (each iteration
consumes at least the `=` of its token, so `cs.length` iterations always
suffice; `scanStatusFuel_eq` shows the bound is irrelevant). -/
def scanStatusFuel (fuel : Nat) (cs : List Char) (d : Record) : Except String Record :=
  match cs with
  | [] => .ok d
  | c :: rest =>
    match fuel with
    | 0 => .error "iteration bound exhausted (unreachable)"
    | fuel + 1 =>
      match scanTok (c :: rest) with
      | .error e => .error e
      | .ok kv => scanStatusFuel fuel (skipSep kv.2) (odSet d kv.1.1 kv.1.2)

/-- The scanner loop started with its sufficient iteration bound. -/
def scanStatus (cs : List Char) (d : Record) : Except String Record :=
  scanStatusFuel cs.length cs d

theorem scanStatusFuel_irrel : ∀ (fuel : Nat) (cs : List Char) (d : Record), cs.length ≤ fuel →
    scanStatusFuel fuel cs d = scanStatusFuel cs.length cs d := by
  intro fuel
  induction fuel using Nat.strong_induction_on with
  | _ fuel ih =>
    intro cs d h
    match fuel, cs with
    | _, [] => simp [scanStatusFuel]
    | 0, c :: rest => simp at h
    | f + 1, c :: rest =>
      cases htok : scanTok (c :: rest) with
      | error e =>
        show (match scanTok (c :: rest) with
              | .error e => (.error e : Except String Record)
              | .ok kv => scanStatusFuel f (skipSep kv.2) (odSet d kv.1.1 kv.1.2))
            = (match scanTok (c :: rest) with
              | .error e => (.error e : Except String Record)
              | .ok kv => scanStatusFuel rest.length (skipSep kv.2) (odSet d kv.1.1 kv.1.2))
        rw [htok]
      | ok kv =>
        have hlt : kv.2.length < rest.length + 1 :=
          @scanTok_length (c :: rest) kv.1 kv.2 (by simpa using htok)
        have hskip := skipSep_length kv.2
        simp only [List.length_cons] at h
        have hstep1 : scanStatusFuel (f + 1) (c :: rest) d
            = scanStatusFuel f (skipSep kv.2) (odSet d kv.1.1 kv.1.2) := by
          show (match scanTok (c :: rest) with
                | .error e => (.error e : Except String Record)
                | .ok kv => scanStatusFuel f (skipSep kv.2) (odSet d kv.1.1 kv.1.2)) = _
          rw [htok]
        have hstep2 : scanStatusFuel (c :: rest).length (c :: rest) d
            = scanStatusFuel rest.length (skipSep kv.2) (odSet d kv.1.1 kv.1.2) := by
          show (match scanTok (c :: rest) with
                | .error e => (.error e : Except String Record)
                | .ok kv => scanStatusFuel rest.length (skipSep kv.2) (odSet d kv.1.1 kv.1.2)) = _
          rw [htok]
        rw [hstep1, hstep2, ih f (by omega) _ _ (by omega), ih rest.length (by omega) _ _ (by omega)]

theorem scanStatusFuel_eq (fuel : Nat) (cs : List Char) (d : Record) (h : cs.length ≤ fuel) :
    scanStatusFuel fuel cs d = scanStatus cs d :=
  scanStatusFuel_irrel fuel cs d h

/-- Position right after the status-line marker: `i = m.index(':')+2` (line 453). -/
def afterColonPlus2 : List Char → List Char
  | [] => []
  | c :: rest => if c = ':' then rest.drop 1 else afterColonPlus2 rest

/-! ## StatusLinesDictExtractor: correlation state machine (lines 426-512) -/

/-- Per-run extractor state, created once when `register()` is called
(lines 426-429): `self.__jmsenabled = None; self.__previous = None`. -/
structure ExtractorState where
  jmsenabled : Option Bool
  previous : Option Record
deriving DecidableEq

/-- Event kind computed at the top of `handleLine` (lines 432-438).  In this
version the `JMS Status: ` match is commented out, so the entry point only ever
produces `correlator`; the correlation logic (lines 489-512) nevertheless
branches on both kinds, and is modelled as a function of the kind. -/
inductive StatusKind where
  | correlator
  | jms
deriving DecidableEq

/-- Correlation logic of `handleLine` after the status dictionary `d` has been
parsed and published (lines 489-512).  Returns the new state and the list of
`EVENT_COMBINED_STATUS_DICT` publications in order, or the exception that
propagates: `combined.update(self.__previous)` with `__previous = None` raises
`TypeError` (line 506), and `assert self.__previous is None` raises
`AssertionError` (line 510). -/
def statusDictMachine (st : ExtractorState) (kind : StatusKind) (d : Record) :
    Except String (ExtractorState × List Record) :=
  match st.jmsenabled with
  | none =>
    match st.previous with
    | none => .ok ({ jmsenabled := none, previous := some d }, [])
    | some prev =>
      match kind with
      | .correlator => .ok ({ jmsenabled := some false, previous := none }, [prev, d])
      | .jms => .ok ({ jmsenabled := some true, previous := none }, [odUpdate d prev])
  | some false => .ok (st, [d])
  | some true =>
    match kind with
    | .jms =>
      match st.previous with
      | none => .error "TypeError: NoneType object is not iterable"
      | some prev => .ok ({ jmsenabled := some true, previous := none }, [odUpdate d prev])
    | .correlator =>
      match st.previous with
      | some _ => .error "AssertionError: pending record not empty"
      | none => .ok ({ jmsenabled := some true, previous := some d }, [])

/-- Marker test and scanning part of `handleLine` (lines 431-484): recognize
`Correlator Status: `, build the ordered dictionary with the mandatory
`datetime`/`seconds`/`line num` fields, then scan the `key=value` tokens.
`dt`, `secs` and `lineno` carry the values of
`line.getDetails()['datetimestring']`, `line.getDateTime().timestamp()` and
`line.lineno` (datetime-string parsing is library work, out of this model). -/
def extractStatusDict (dt : String) (secs : ℚ) (lineno : Int) (m : String) :
    Option (Except String Record) :=
  if "Correlator Status: ".data.isPrefixOf m.data then
    some (scanStatus (afterColonPlus2 m.data)
      [("datetime", .vStr dt), ("seconds", .vFloat secs), ("line num", .vInt lineno)])
  else none

/-- Whole `handleLine` (lines 431-512): parse, then `if not d: return`, then run
the correlation machine with the computed kind (always `correlator` here, the
JMS match being commented out). -/
def handleLine (st : ExtractorState) (dt : String) (secs : ℚ) (lineno : Int) (m : String) :
    Except String (ExtractorState × List Record) :=
  match extractStatusDict dt secs lineno m with
  | none => .ok (st, [])
  | some (.error e) => .error e
  | some (.ok d) =>
    if d.isEmpty then .ok (st, [])
    else statusDictMachine st .correlator d

/-- One input log line together with the timestamp details that
`getDetails`/`getDateTime` extract from its text. -/
structure LineInput where
  dt : String
  secs : ℚ
  lineno : Int
  message : String

/-- Processing of the lines of one file through the extractor (`processFile`
publishes `EVENT_LINE` once per non-blank line, line 763). -/
def runExtractorFile : ExtractorState → List LineInput → Except String (ExtractorState × List Record)
  | st, [] => .ok (st, [])
  | st, l :: rest => do
    let (st2, outs) ← handleLine st l.dt l.secs l.lineno l.message
    let (st3, outs2) ← runExtractorFile st2 rest
    .ok (st3, outs ++ outs2)

/-- Processing of several files in sequence (`processFiles`, lines 724-729).
The extractor state is created once, in `register()`, and `processFile` does not
reset it: `StatusLinesDictExtractor` has no `EVENT_FILE_STARTED` subscription,
so the state carries over from one file to the next.  Returns the final state
and, per file, the combined records published while processing that file. -/
def runExtractorFilesFrom : ExtractorState → List (List LineInput) → Except String (ExtractorState × List (List Record))
  | st, [] => .ok (st, [])
  | st, f :: fs => do
    let (st2, outs) ← runExtractorFile st f
    let (st3, rest) ← runExtractorFilesFrom st2 fs
    .ok (st3, outs :: rest)

/-- Whole-run extractor processing, starting from the state `register()` builds. -/
def runExtractorFiles (files : List (List LineInput)) :
    Except String (ExtractorState × List (List Record)) :=
  runExtractorFilesFrom ⟨none, none⟩ files

/-! ## StatusLinesAnnotator (lines 172-328) -/

/-- The `COLUMN_DISPLAY_NAMES` table (lines 181-229), in source order. -/
def COLUMN_DISPLAY_NAMES : List (String × String) := [
  ("datetime", "datetime"),
  ("seconds", "seconds"),
  ("line num", "line num"),
  ("iq", "iq=queued input"),
  ("icq", "icq=queued input public"),
  ("oq", "oq=queued output"),
  ("rq", "rq=queued route"),
  ("runq", "runq=queued ctxs"),
  ("nc", "nc=ext+int consumers"),
  ("=rx /sec", "rx /sec"),
  ("=tx /sec", "tx /sec"),
  ("=rt /sec", "rt /sec"),
  ("rx", "rx=received"),
  ("tx", "tx=sent"),
  ("rt", "rt=routed"),
  ("sm", "sm=monitor instances"),
  ("nctx", "nctx=contexts"),
  ("ls", "ls=listeners"),
  ("pm", "pm=resident MB"),
  ("vm", "vm=virtual MB"),
  ("jvm", "jvm=Java MB"),
  ("=pm delta MB", "pm delta MB"),
  ("=vm delta MB", "vm delta MB"),
  ("=jvm delta MB", "jvm delta MB"),
  ("si", "si=swap pages read/sec"),
  ("so", "so=swap pages written/sec"),
  ("lcn", "lcn=slowest ctx"),
  ("lcq", "lcq=slowest ctx input queue"),
  ("lct", "lct=slowest ctx latency secs"),
  ("srn", "srn=slowest consumer/plugin"),
  ("srq", "srq=slowest consumer/plugin queue")
]

/-- Per-file annotator state, reset by `fileStarted` (lines 243-246). -/
structure AnnotatorState where
  previousStatus : Option Record
  columns : Option (List (String × String))
deriving DecidableEq

/-- The `fileStarted` handler (lines 243-246): clear both fields so that files
don't interfere with each other. -/
def fileStarted (_st : AnnotatorState) : AnnotatorState := ⟨none, none⟩

/-- `decideColumns` (lines 248-267): walk `COLUMN_DISPLAY_NAMES`, always taking
the `=`-generated pseudo-columns, taking table entries present in the status
(removing them from `allkeys`), then appending the remaining status keys under
their own name. -/
def decideColumns (status : Record) : List (String × String) :=
  match COLUMN_DISPLAY_NAMES.foldl
    (fun (acc : List (String × String) × List String) kv =>
      match acc with
      | (cols, allkeys) =>
        if "=".data.isPrefixOf kv.1.data then (odSet cols kv.1 kv.2, allkeys)
        else if kv.1 ∈ allkeys then (odSet cols kv.1 kv.2, allkeys.erase kv.1)
        else (cols, allkeys))
    ([], odKeys status) with
  | (cols, allkeys) =>
    status.foldl (fun cols2 p => if p.1 ∈ allkeys then odSet cols2 p.1 p.1 else cols2) cols

/-- Python `==` between two status values (numbers compare numerically). -/
def pyEq (a b : Value) : Bool :=
  match a.toRat?, b.toRat? with
  | some x, some y => decide (x = y)
  | _, _ => decide (a = b)

/-- Python subtraction of two status values, as a rational; `TypeError` when
either operand is not a number. -/
def vSubQ (a b : Value) : Except String ℚ :=
  match a.toRat?, b.toRat? with
  | some x, some y => .ok (x - y)
  | _, _ => .error "TypeError: unsupported operand type"

/-- Dictionary subscription `d[k]`, raising `KeyError` when the key is absent. -/
def getVal (d : Record) (k : String) : Except String Value :=
  match odGet d k with
  | some v => .ok v
  | none => .error "KeyError"

/-- Numeric view of a value, with a `TypeError` for non-numbers. -/
def getNum (v : Value) : Except String ℚ :=
  match v.toRat? with
  | some x => .ok x
  | none => .error "TypeError: unsupported operand type"

/-- Body of the per-column loop of `annotateStatus` (lines 282-307): generated
(`=`-prefixed) columns get rates and deltas, with `0` when there is no previous
status or no elapsed time; plain columns pass through, the three memory columns
scaled from kb to MB. -/
def annotateVal (status : Record) (previousStatus : Option Record) (seconds : Value)
    (k disp : String) : Except String Value :=
  if "=".data.isPrefixOf k.data then
    match previousStatus with
    | none => .ok (.vInt 0)
    | some prev => do
      let ps ← getVal prev "seconds"
      if pyEq seconds ps then .ok (.vInt 0)
      else if k = "=rx /sec" then do
        let num ← vSubQ (← getVal status "rx") (← getVal prev "rx")
        let den ← vSubQ seconds ps
        .ok (.vFloat (num / den))
      else if k = "=tx /sec" then do
        let num ← vSubQ (← getVal status "tx") (← getVal prev "tx")
        let den ← vSubQ seconds ps
        .ok (.vFloat (num / den))
      else if k = "=rt /sec" then do
        let num ← vSubQ (← getVal status "rt") (← getVal prev "rt")
        let den ← vSubQ seconds ps
        .ok (.vFloat (num / den))
      else if k = "=pm delta MB" then do
        let num ← vSubQ (← getVal status "pm") (← getVal prev "pm")
        .ok (.vFloat (num / 1024))
      else if k = "=vm delta MB" then do
        let num ← vSubQ (← getVal status "vm") (← getVal prev "vm")
        .ok (.vFloat (num / 1024))
      else if k = "=jvm delta MB" then
        if "jvm" ∈ odKeys prev then do
          let num ← vSubQ (← getVal status "jvm") (← getVal prev "jvm")
          .ok (.vFloat (num / 1024))
        else .ok (.vInt (-1))
      else .error "AssertionError: unknown generated key"
  else
    let val := (odGet status k).getD .vNone
    if (disp = "pm=resident MB" ∨ disp = "vm=virtual MB" ∨ disp = "jvm=Java MB")
        ∧ val ≠ .vNone then do
      let x ← getNum val
      .ok (.vFloat (x / 1024))
    else .ok val

/-- `annotateStatus` (lines 269-308): reads `status['seconds']`, then builds the
annotated dictionary keyed by display name, one column at a time. -/
def annotateStatus (cols : List (String × String)) (status : Record)
    (previousStatus : Option Record) : Except String Record := do
  let seconds ← getVal status "seconds"
  cols.foldlM (fun d p => do
    let v ← annotateVal status previousStatus seconds p.1 p.2
    pure (odSet d p.2 v)) ([] : Record)

/-- `handleStatusDict` (lines 317-328): decide the columns from the first status
of the file, annotate, and remember raw+annotated values as the new previous
status.  The returned record is the `EVENT_ANNOTATED_STATUS_DICT` publication. -/
def handleStatusDict (st : AnnotatorState) (status : Record) :
    Except String (AnnotatorState × Record) :=
  let cols := match st.columns with
    | none => decideColumns status
    | some c => c
  match annotateStatus cols status st.previousStatus with
  | .error e => .error e
  | .ok annotated =>
    .ok ({ previousStatus := some (odUpdate status annotated), columns := some cols }, annotated)

/-- Feed a sequence of combined status dictionaries through the annotator,
collecting the published annotated records; an exception aborts the run but the
records already published stay published. -/
def runAnnotator : AnnotatorState → List Record → List Record × Except String AnnotatorState
  | st, [] => ([], .ok st)
  | st, r :: rs =>
    match handleStatusDict st r with
    | .error e => ([], .error e)
    | .ok (st2, out) =>
      let (outs, res) := runAnnotator st2 rs
      (out :: outs, res)

/-! ## StatusLineSummarizer (lines 515-653) -/

/-- Per-file summarizer state, reset by `handleFileStarted` (lines 534-538). -/
structure SummState where
  status_min : Option Record
  status_max : Option Record
  status_sum : Option Record
  status_0pc : Option Record
  status_25pc : Option Record
  status_50pc : Option Record
  status_75pc : Option Record
  status_100pc : Option Record
  laststatus : Option Record
  samples : Nat
deriving DecidableEq

/-- The `handleFileStarted` handler: everything `None`, zero samples. -/
def handleFileStarted : SummState :=
  ⟨none, none, none, none, none, none, none, none, none, 0⟩

/-- Subscripting a possibly-`None` dictionary: `TypeError` when it is `None`. -/
def getRec : Option Record → Except String Record
  | some d => .ok d
  | none => .error "TypeError: NoneType object is not subscriptable"

/-- Python `a > b` on status values. -/
def pyGT : Value → Value → Except String Bool
  | .vInt x, .vInt y => .ok (decide (y < x))
  | a, b =>
    match a.toRat?, b.toRat? with
    | some x, some y => .ok (decide (y < x))
    | _, _ => .error "TypeError: unorderable types"

/-- Python `a < b` on status values. -/
def pyLT : Value → Value → Except String Bool
  | .vInt x, .vInt y => .ok (decide (x < y))
  | a, b =>
    match a.toRat?, b.toRat? with
    | some x, some y => .ok (decide (x < y))
    | _, _ => .error "TypeError: unorderable types"

/-- Python `v != 0` (never raises; non-numbers are simply not equal to 0). -/
def pyNe0 : Value → Bool
  | .vInt a => decide (a ≠ 0)
  | v =>
    match v.toRat? with
    | some x => decide (x ≠ 0)
    | none => true

/-- Python `a + b` on status values (int+int stays int, floats contaminate). -/
def vAdd : Value → Value → Except String Value
  | .vInt a, .vInt b => .ok (.vInt (a + b))
  | .vInt a, .vBool b => .ok (.vInt (a + if b then 1 else 0))
  | .vBool a, .vInt b => .ok (.vInt ((if a then 1 else 0) + b))
  | .vBool a, .vBool b => .ok (.vInt ((if a then 1 else 0) + if b then 1 else 0))
  | .vFloat x, b =>
    match b.toRat? with
    | some y => .ok (.vFloat (x + y))
    | none => .error "TypeError: unsupported operand type"
  | a, .vFloat y =>
    match a.toRat? with
    | some x => .ok (.vFloat (x + y))
    | none => .error "TypeError: unsupported operand type"
  | _, _ => .error "TypeError: unsupported operand type"

/-- Body of the per-column loop of `handleAnnotatedStatus` (lines 552-562):
strings are skipped; max and min are updated by comparison; non-zero values are
accumulated into the sum, scaled to `int(100000*v)` when the column's first
value was a float. -/
def statStep (zeroO : Option Record) (acc : Option Record × Option Record × Option Record)
    (kv : String × Value) : Except String (Option Record × Option Record × Option Record) :=
  match kv.2 with
  | .vStr _ => .ok acc
  | v => do
    let maxR ← getRec acc.1
    let gt ← pyGT v (← getVal maxR kv.1)
    let maxR := if gt then odSet maxR kv.1 v else maxR
    let minR ← getRec acc.2.1
    let lt ← pyLT v (← getVal minR kv.1)
    let minR := if lt then odSet minR kv.1 v else minR
    if pyNe0 v then do
      let zeroR ← getRec zeroO
      let z ← getVal zeroR kv.1
      let addend ← if z.isFloat then do
          let x ← getNum v
          pure (Value.vInt (pyTrunc (100000 * x)))
        else pure v
      let sumR ← getRec acc.2.2
      let sv ← getVal sumR kv.1
      let s2 ← vAdd sv addend
      .ok (some maxR, some minR, some (odSet sumR kv.1 s2))
    else .ok (some maxR, some minR, acc.2.2)

/-- `handleAnnotatedStatus` (lines 544-562): on the first status of a file,
initialize the accumulators from it (sum as all-zero); then fold the per-column
update over the status items, bump the sample count and remember the status. -/
def handleAnnotatedStatus (st : SummState) (status : Record) : Except String SummState := do
  let st := if st.laststatus = none then
      { st with
        status_0pc := some status
        status_sum := some (status.foldl (fun d p => odSet d p.1 (Value.vInt 0)) [])
        status_min := some status
        status_max := some status }
    else st
  let acc ← status.foldlM (statStep st.status_0pc) (st.status_max, st.status_min, st.status_sum)
  match acc with
  | (maxA, minA, sumA) =>
    .ok { st with
          status_max := maxA
          status_min := minA
          status_sum := sumA
          laststatus := some status
          samples := st.samples + 1 }

/-- Python truthiness of a possibly-`None` dictionary (`not self.laststatus`). -/
def pyFalsyRec : Option Record → Bool
  | none => true
  | some d => d.isEmpty

/-- Python `a or b` on possibly-`None` dictionaries. -/
def pyOrRec (a b : Option Record) : Option Record :=
  match a with
  | some d => if d.isEmpty then b else some d
  | none => b

/-- `numberOrEmpty` (lines 580-583). -/
def numberOrEmpty : Value → Value
  | .vNone => .vStr ""
  | .vStr _ => .vStr ""
  | v => v

/-- `calcmean` (lines 585-599): strings give `''`; float-first columns decode
the scaled-integer sum by `/100000.0`; the sum is divided by the sample count;
a zero mean becomes the int `0`; int-first columns with a mean of magnitude
over 1000 are truncated to an int for display. -/
def calcmean (sumR zeroR : Record) (samples : Nat) (k : String) : Except String Value := do
  let v ← getVal sumR k
  if v = .vNone ∨ v.isStr ∨ ((odGet zeroR k).getD (.vStr "")).isStr then .ok (.vStr "")
  else do
    let z ← getVal zeroR k
    let x ← getNum v
    let x := if z.isFloat then x / 100000 else x
    if samples = 0 then .error "ZeroDivisionError: float division by zero"
    else
      let x := x / (samples : ℚ)
      if x = 0 then .ok (.vInt 0)
      else if 1000 < |x| ∧ ((odGet zeroR k).getD (.vStr "")).isIntLike then
        .ok (.vInt (pyTrunc x))
      else .ok (.vFloat x)

/-- The summary table as built by `handleFileComplete` (lines 601-611): the
labelled rows, in order, before they are handed to the writers (the CSV/JSON
writer loop is I/O and out of this model). -/
abbrev SummaryRows := List (String × Option Record)

/-- `handleFileComplete` (lines 575-616): with fewer than 2 samples, or a falsy
last status or 100% snapshot, log a warning and skip the summary (`none`);
otherwise build the snapshot rows plus min/mean/max rows. -/
def handleFileComplete (st : SummState) : Except String (Option SummaryRows) :=
  if st.samples < 2 ∨ pyFalsyRec st.laststatus ∨ pyFalsyRec st.status_100pc then
    .ok none
  else do
    let minR ← getRec st.status_min
    let sumR ← getRec st.status_sum
    let zeroR ← getRec st.status_0pc
    let meanR ← sumR.foldlM (fun d p => do
      let v ← calcmean sumR zeroR st.samples p.1
      pure (odSet d p.1 v)) ([] : Record)
    let maxR ← getRec st.status_max
    .ok (some [
      ("0% (start)", st.status_0pc),
      ("25%", st.status_25pc),
      ("50%", st.status_50pc),
      ("75%", st.status_75pc),
      ("100% (end)", st.status_100pc),
      ("", none),
      ("min", some (minR.map (fun p => (p.1, numberOrEmpty p.2)))),
      ("mean", some meanR),
      ("max", some (maxR.map (fun p => (p.1, numberOrEmpty p.2))))])

/-- `handleFilePercentComplete` (lines 564-573): latch the 25/50/75% snapshots,
overwrite the 100% snapshot, and at 100% run `handleFileComplete`. -/
def handleFilePercentComplete (st : SummState) (percent : Nat) :
    SummState × Except String (Option SummaryRows) :=
  let st := if 25 ≤ percent then { st with status_25pc := pyOrRec st.status_25pc st.laststatus } else st
  let st := if 50 ≤ percent then { st with status_50pc := pyOrRec st.status_50pc st.laststatus } else st
  let st := if 75 ≤ percent then { st with status_75pc := pyOrRec st.status_75pc st.laststatus } else st
  let st := if percent = 100 then { st with status_100pc := st.laststatus } else st
  (st, if percent = 100 then handleFileComplete st else .ok none)

/-- Whole-file summarizer run: file start, the annotated statuses in order, then
the final 100% progress event that `processFile` always publishes (line 766). -/
def runSummarizer (records : List Record) : Except String (SummState × Option SummaryRows) := do
  let st ← records.foldlM handleAnnotatedStatus handleFileStarted
  let pr := handleFilePercentComplete st 100
  let rows ← pr.2
  .ok (pr.1, rows)

/-- Label lookup in the summary table. -/
def lookupRow (rows : SummaryRows) (label : String) : Option (Option Record) :=
  (rows.find? (fun p => p.1 == label)).map Prod.snd

/-! ## CSVStatusWriter.formatItem (lines 355-381) -/

/-- The source tests `item.is_integer` without calling it (line 372): that is
the bound method object, which is always truthy in Python, so the whole-number
test never fails. -/
def is_integer_truthy : Bool := true

/-- Insert the thousands grouping commas; input and output are reversed digit
lists (least significant digit first). -/
def groupRev : List Char → List Char
  | d1 :: d2 :: d3 :: d4 :: rest => d1 :: d2 :: d3 :: ',' :: groupRev (d4 :: rest)
  | l => l

/-- Python `f'{n:,}'` for an int: decimal digits with thousands separators. -/
def intComma (n : Int) : String :=
  let ds := Nat.toDigits 10 n.natAbs
  let s := String.mk (groupRev ds.reverse).reverse
  if n < 0 then "-" ++ s else s

/-- Round half to even (Python float formatting). -/
def roundHalfEven (q : ℚ) : Int :=
  let f := ⌊q⌋
  let r := q - f
  if r < 1/2 then f
  else if 1/2 < r then f + 1
  else if f % 2 = 0 then f else f + 1

/-- Fixed three-digit fraction, zero padded on the left. -/
def frac3 (fp : Nat) : String :=
  let fd := Nat.toDigits 10 fp
  String.mk (List.replicate (3 - fd.length) '0' ++ fd)

/-- Python `f'{q:,.3f}'`. -/
def floatComma3 (q : ℚ) : String :=
  let scaled := roundHalfEven (q * 1000)
  let a := scaled.natAbs
  (if scaled < 0 then "-" else "") ++ intComma ((a / 1000 : Nat) : Int) ++ "." ++ frac3 (a % 1000)

/-- Python `f'{q:.3f}'` (no grouping). -/
def floatFixed3 (q : ℚ) : String :=
  let scaled := roundHalfEven (q * 1000)
  let a := scaled.natAbs
  (if scaled < 0 then "-" else "") ++ Nat.repr (a / 1000) ++ "." ++ frac3 (a % 1000)

/-- Python truthiness of a status value (for the `and item` test, line 368). -/
def pyTruthy : Value → Bool
  | .vInt n => decide (n ≠ 0)
  | .vFloat q => decide (q ≠ 0)
  | .vStr s => decide (s.data ≠ [])
  | .vBool b => b
  | .vNone => false

/-- Python `item[:item.find('.')]` (line 371): slice up to the first occurrence
of `c`; when absent, `find` returns `-1`, so the slice drops the last character. -/
def sliceToFind (s : String) (c : Char) : String :=
  if c ∈ s.data then String.mk (s.data.takeWhile (fun x => x ≠ c))
  else String.mk s.data.dropLast

/-- `formatItem` (lines 355-381).  `None` prints `?`; a truthy `seconds` value
prints with 3 decimals; `datetime` is sliced at the `.`; a float of magnitude at
least 1000 is converted to an int (the `is_integer` test being always truthy);
ints (including bools, which are ints in Python) print with thousands grouping;
remaining floats print as `,.3f`; strings pass through. -/
def formatItem (item : Value) (columnDisplayName : String) : Except String String :=
  if item = .vNone then .ok "?"
  else if columnDisplayName = "seconds" ∧ pyTruthy item then
    match item.toRat? with
    | some q => .ok (floatFixed3 q)
    | none => .error "ValueError: unknown format code f"
  else if columnDisplayName = "datetime" then
    match item with
    | .vStr s => .ok (sliceToFind s '.')
    | _ => .error "TypeError: not subscriptable"
  else
    let item2 := match item with
      | .vFloat q => if is_integer_truthy ∧ 1000 ≤ |q| then Value.vInt (pyTrunc q) else .vFloat q
      | other => other
    match item2 with
    | .vInt n => .ok (intComma n)
    | .vBool b => .ok (intComma (if b then 1 else 0))
    | .vFloat q => .ok (floatComma3 q)
    | .vStr s => .ok s
    | .vNone => .ok "?"

/-! ## Helper lemmas for evaluating the embedded code -/

@[simp] theorem ok_bind {α β : Type} (x : α) (f : α → Except String β) :
    (Except.ok x >>= f) = f x := rfl

@[simp] theorem error_bind {α β : Type} (e : String) (f : α → Except String β) :
    ((Except.error e : Except String α) >>= f) = .error e := rfl

@[simp] theorem pure_eq_ok {α : Type} (x : α) : (pure x : Except String α) = .ok x := rfl

@[simp] theorem odGet_nil {α : Type} (k : String) : odGet ([] : List (String × α)) k = none := rfl

@[simp] theorem odGet_cons {α : Type} (p : String × α) (d : List (String × α)) (k : String) :
    odGet (p :: d) k = if p.1 = k then some p.2 else odGet d k := by
  by_cases h : p.1 = k
  · rw [if_pos h]
    unfold odGet
    rw [List.find?_cons_of_pos _ (by simp [h])]
    rfl
  · rw [if_neg h]
    unfold odGet
    rw [List.find?_cons_of_neg _ (by simp [h])]

@[simp] theorem odSet_nil {α : Type} (k : String) (v : α) :
    odSet ([] : List (String × α)) k v = [(k, v)] := rfl

@[simp] theorem odSet_cons {α : Type} (p : String × α) (d : List (String × α)) (k : String) (v : α) :
    odSet (p :: d) k v = if p.1 = k then (k, v) :: d else p :: odSet d k v := rfl

/-! ## Claim C1 -/

/-- Claim C1 (code_bug): the source comment at line 470 says the thousands
separator is suppressed for non-string values, but the condition
`endchar != '"' or m[i] != ','` keeps every character of an unquoted value and
drops the commas of a quoted value.  Evaluating the parser at a status line with
a quoted and an unquoted comma-bearing value: `lcn="1,000"` parses to the string
`1000` (the comma inside the quotes is lost, not preserved verbatim), while
`rx=1,500` parses to the string `1,500` (the comma of the unquoted value is kept
rather than stripped, so the int coercion fails). -/
theorem c1_comma_stripping_inverted :
    extractStatusDict "2019-09-12 12:00:00.000" 100 5
        "Correlator Status: lcn=\"1,000\" rx=1,500"
      = some (.ok [("datetime", .vStr "2019-09-12 12:00:00.000"), ("seconds", .vFloat 100),
          ("line num", .vInt 5), ("lcn", .vStr "1000"), ("rx", .vStr "1,500")])
    ∧ Value.vStr "1000" ≠ Value.vStr "1,000"
    ∧ Value.vStr "1,500" ≠ Value.vInt 1500 :=
  ⟨rfl, by decide, by decide⟩

/-! ## Claim C2 -/

/-- Claim C2 (code_bug): the extractor state is initialized once in `register()`
and `StatusLinesDictExtractor` has no `EVENT_FILE_STARTED` subscription, so the
state is not reset when a new file starts.  Processing a file with a single
status line leaves that record pending and the protocol state `Unknown`; the
second file then starts with file 1's record still pending, and publishes it
(together with its own first record) among file 2's combined records, instead of
starting in the `Unknown` state with no pending record. -/
theorem c2_extractor_state_not_reset :
    runExtractorFile ⟨none, none⟩
        [⟨"2019-09-12 10:00:00.000", 100, 10, "Correlator Status: rx=5"⟩]
      = .ok (⟨none, some [("datetime", .vStr "2019-09-12 10:00:00.000"), ("seconds", .vFloat 100),
          ("line num", .vInt 10), ("rx", .vInt 5)]⟩, [])
    ∧ runExtractorFiles
        [[⟨"2019-09-12 10:00:00.000", 100, 10, "Correlator Status: rx=5"⟩],
         [⟨"2019-09-13 10:00:00.000", 200, 3, "Correlator Status: rx=7"⟩]]
      = .ok (⟨some false, none⟩,
          [[],
           [[("datetime", .vStr "2019-09-12 10:00:00.000"), ("seconds", .vFloat 100),
             ("line num", .vInt 10), ("rx", .vInt 5)],
            [("datetime", .vStr "2019-09-13 10:00:00.000"), ("seconds", .vFloat 200),
             ("line num", .vInt 3), ("rx", .vInt 7)]]]) :=
  ⟨rfl, rfl⟩

/-! ## Claim C3 -/

/-- Claim C3 counterexample: in `SecondaryEnabled` state with no pending primary
record, a secondary-source record is not dropped with processing continuing:
the merge `combined.update(self.__previous)` hits `None` and raises `TypeError`,
which `publish` logs and re-raises (line 714), aborting the run. -/
theorem c3_secondary_no_pending_raises :
    statusDictMachine ⟨some true, none⟩ .jms
        [("datetime", .vStr "2019-09-12 10:00:00.000"), ("seconds", .vFloat 1), ("line num", .vInt 1)]
      = .error "TypeError: NoneType object is not iterable" := rfl

/-- Claim C3 (amended): for every record arriving as a secondary-source event in
`SecondaryEnabled` state with no pending primary, the handler raises a
`TypeError` (merging into the absent pending record), which the dispatcher logs
and re-raises, aborting the run; the record is not silently dropped.  (In this
code version the secondary message match is commented out, so the state is not
reachable from the line-handling entry point.) -/
theorem c3_secondary_no_pending_typeerror (d : Record) :
    statusDictMachine ⟨some true, none⟩ .jms d
      = .error "TypeError: NoneType object is not iterable" := rfl

/-! ## Claim C4 -/

/-- Claim C4 counterexample: in `Unknown` state with a pending record whose
`seconds` is 10, an arriving other-source record with `seconds` 20 produces a
combined record whose `seconds` is the pending primary's 10, not the
secondary's 20: on key collision the pending record's value wins. -/
theorem c4_secondary_overlay_false :
    statusDictMachine
        ⟨none, some [("datetime", .vStr "A"), ("seconds", .vFloat 10), ("line num", .vInt 1)]⟩
        .jms [("datetime", .vStr "B"), ("seconds", .vFloat 20), ("line num", .vInt 2)]
      = .ok (⟨some true, none⟩,
          [[("datetime", .vStr "A"), ("seconds", .vFloat 10), ("line num", .vInt 1)]])
    ∧ odGet [("datetime", Value.vStr "A"), ("seconds", Value.vFloat 10), ("line num", Value.vInt 1)]
        "seconds" = some (.vFloat 10)
    ∧ Value.vFloat 10 ≠ Value.vFloat 20 :=
  ⟨rfl, rfl, by decide⟩

/-- Claim C4 (amended): in `Unknown` state with a pending record, an arriving
other-source record transitions to `SecondaryEnabled` and emits exactly one
combined record, built as a copy of the new record updated with the pending
record (`combined = OrderedDict(d); combined.update(self.__previous)`), so for
every key present in both records the pending primary record's value wins,
keys only in the new record keep its values, and the pending record is cleared. -/
theorem c4_primary_wins_on_collision (prev d : Record) (hn : (odKeys prev).Nodup) :
    statusDictMachine ⟨none, some prev⟩ .jms d
      = .ok (⟨some true, none⟩, [odUpdate d prev])
    ∧ (∀ k ∈ odKeys prev, odGet (odUpdate d prev) k = odGet prev k)
    ∧ (∀ k, k ∉ odKeys prev → odGet (odUpdate d prev) k = odGet d k) :=
  ⟨rfl, fun _ hk => odGet_odUpdate_mem d prev hn hk, fun _ hk => odGet_odUpdate_not_mem d prev hk⟩

/-! ## Claim C8 -/

/-- Claim C8 (confirmed): when fewer than 2 samples were observed for a file, or
no 100%-checkpoint snapshot exists, `handleFileComplete` only logs a warning: it
returns without building any summary rows and without raising an exception. -/
theorem c8_too_few_samples_skips_summary (st : SummState)
    (h : st.samples < 2 ∨ st.status_100pc = none) :
    handleFileComplete st = .ok none := by
  unfold handleFileComplete
  rcases h with h | h
  · rw [if_pos (Or.inl h)]
  · rw [if_pos (Or.inr (Or.inr (by rw [h]; rfl)))]

/-- Witness: the freshly reset summarizer state has zero samples and its summary
generation is skipped without an exception. -/
theorem c8_too_few_samples_skips_summary_witness :
    handleFileStarted.samples < 2 ∧ handleFileComplete handleFileStarted = .ok none :=
  ⟨by decide, c8_too_few_samples_skips_summary handleFileStarted (Or.inl (by decide))⟩

/-! ## Claim C10 -/

/-- Claim C10 (confirmed): in `formatItem`, for a column other than `seconds`
and `datetime`, every float of magnitude at least 1000 is converted to an int
before formatting, discarding any fractional part whether or not the float is
whole-valued, because the `item.is_integer` test (a bound method, not a call) is
always truthy. -/
theorem c10_large_floats_truncated (q : ℚ) (name : String)
    (h1 : name ≠ "seconds") (h2 : name ≠ "datetime") (h3 : 1000 ≤ |q|) :
    formatItem (.vFloat q) name = .ok (intComma (pyTrunc q)) := by
  unfold formatItem
  rw [if_neg (by simp), if_neg (by simp [h1]), if_neg h2]
  show (match (if is_integer_truthy ∧ 1000 ≤ |q| then Value.vInt (pyTrunc q) else Value.vFloat q) with
        | .vInt n => (.ok (intComma n) : Except String String)
        | .vBool b => .ok (intComma (if b then 1 else 0))
        | .vFloat q => .ok (floatComma3 q)
        | .vStr s => .ok s
        | .vNone => .ok "?")
      = .ok (intComma (pyTrunc q))
  rw [if_pos ⟨rfl, h3⟩]

/-- Witness: the float 1234.56 in a plain column formats as `1,234`, the
fractional part discarded. -/
theorem c10_large_floats_truncated_witness :
    (1000 : ℚ) ≤ |(1234.56 : ℚ)|
    ∧ formatItem (.vFloat 1234.56) "rx /sec" = .ok "1,234" := by
  have habs : (1000 : ℚ) ≤ |(1234.56 : ℚ)| := by
    rw [abs_of_pos (by norm_num)]
    norm_num
  refine ⟨habs, ?_⟩
  rw [c10_large_floats_truncated 1234.56 "rx /sec" (by decide) (by decide) habs]
  with_unfolding_all rfl

/-! ## Claim C6 -/

theorem splitKey_append : ∀ (k rest : List Char), '=' ∉ k →
    splitKey (k ++ '=' :: rest) = some (k, rest) := by
  intro k
  induction k with
  | nil => intro rest _; simp [splitKey]
  | cons c cs ih =>
    intro rest hk
    have hc : ¬ c = '=' := fun he => hk (by simp [he])
    have hrec := ih rest (fun hm => hk (List.mem_cons_of_mem _ hm))
    simp [splitKey, hc, hrec]

theorem takeVal_space : ∀ (v rest : List Char), ' ' ∉ v →
    takeVal ' ' (v ++ ' ' :: rest) = (v, ' ' :: rest) := by
  intro v
  induction v with
  | nil => intro rest _; simp [takeVal]
  | cons c cs ih =>
    intro rest hv
    have hc : ¬ c = ' ' := fun he => hv (by simp [he])
    have hrec := ih rest (fun hm => hv (List.mem_cons_of_mem _ hm))
    simp [takeVal, hc, hrec]

theorem scanTok_unquoted (k v : String) (rest : List Char)
    (hk : '=' ∉ k.data) (hv : ' ' ∉ v.data) (hq : v.data.head? ≠ some '"') :
    scanTok (k.data ++ '=' :: (v.data ++ ' ' :: rest))
      = .ok ((k, coerceValue v), ' ' :: rest) := by
  obtain ⟨vd⟩ := v
  unfold scanTok
  rw [splitKey_append k.data (vd ++ ' ' :: rest) hk]
  cases vd with
  | nil => simp [takeVal]
  | cons c0 cs0 =>
    have hc0 : ¬ c0 = '"' := by
      intro he
      exact hq (by simp [he])
    have hv2 : ' ' ∉ c0 :: cs0 := hv
    have htv := takeVal_space (c0 :: cs0) rest hv2
    simp only [List.cons_append] at htv
    simp [hc0, htv]

theorem scanStatus_step (c : Char) (cs : List Char) (d : Record)
    (kv : (String × Value) × List Char) (htok : scanTok (c :: cs) = .ok kv) :
    scanStatus (c :: cs) d = scanStatus (skipSep kv.2) (odSet d kv.1.1 kv.1.2) := by
  show scanStatusFuel (c :: cs).length (c :: cs) d = _
  have h1 : scanStatusFuel (cs.length + 1) (c :: cs) d
      = scanStatusFuel cs.length (skipSep kv.2) (odSet d kv.1.1 kv.1.2) := by
    show (match scanTok (c :: cs) with
          | .error e => (.error e : Except String Record)
          | .ok kv => scanStatusFuel cs.length (skipSep kv.2) (odSet d kv.1.1 kv.1.2)) = _
    rw [htok]
  have hlt : kv.2.length < cs.length + 1 :=
    @scanTok_length (c :: cs) kv.1 kv.2 (by simpa using htok)
  have hsk := skipSep_length kv.2
  rw [show (c :: cs).length = cs.length + 1 from rfl, h1,
      scanStatusFuel_eq cs.length _ _ (by omega)]

/-- Claim C6 (confirmed): an unquoted value token is coerced — containing a `.`,
a float conversion is attempted, otherwise an int conversion — and when the
conversion fails the original string is kept; the coercion itself can only
produce an int, a float, or the unchanged string (never an exception), and the
scanner carries on with the rest of the line.  The spec's examples: `42` →
int 42, `3.14` → float 3.14, `abc` → the string `abc`. -/
theorem c6_unquoted_value_coercion (k v : String) (rest : List Char) (d : Record)
    (hk : '=' ∉ k.data) (hv : ' ' ∉ v.data) (hq : v.data.head? ≠ some '"') :
    scanStatus (k.data ++ '=' :: (v.data ++ ' ' :: rest)) d
      = scanStatus (skipSep (' ' :: rest)) (odSet d k (coerceValue v))
    ∧ (∀ s : String, (∃ n, coerceValue s = .vInt n) ∨ (∃ q, coerceValue s = .vFloat q)
        ∨ coerceValue s = .vStr s)
    ∧ coerceValue "42" = .vInt 42
    ∧ coerceValue "3.14" = .vFloat (157 / 50)
    ∧ coerceValue "abc" = .vStr "abc" := by
  refine ⟨?_, ?_, by with_unfolding_all rfl, by with_unfolding_all rfl, by with_unfolding_all rfl⟩
  · have htok := scanTok_unquoted k v rest hk hv hq
    obtain ⟨kd⟩ := k
    cases kd with
    | nil =>
      simp only [List.nil_append] at htok ⊢
      exact scanStatus_step _ _ d _ htok
    | cons kc ks =>
      simp only [List.cons_append] at htok ⊢
      exact scanStatus_step _ _ d _ htok
  · intro s
    by_cases hd : s.data.contains '.'
    · cases hq2 : pyParseFloat s with
      | none => exact Or.inr (Or.inr (by unfold coerceValue; rw [if_pos hd, hq2]))
      | some q => exact Or.inr (Or.inl ⟨q, by unfold coerceValue; rw [if_pos hd, hq2]⟩)
    · cases hn : pyParseInt s with
      | none => exact Or.inr (Or.inr (by unfold coerceValue; rw [if_neg hd, hn]))
      | some n => exact Or.inl ⟨n, by unfold coerceValue; rw [if_neg hd, hn]⟩

/-- Witness for `c6_unquoted_value_coercion` at the token `rx=42 `. -/
theorem c6_unquoted_value_coercion_witness :
    ('=' ∉ ("rx" : String).data) ∧ (' ' ∉ ("42" : String).data)
    ∧ (("42" : String).data.head? ≠ some '"')
    ∧ scanStatus (("rx" : String).data ++ '=' :: (("42" : String).data ++ ' ' :: [])) []
        = scanStatus (skipSep (' ' :: [])) (odSet [] "rx" (coerceValue "42")) :=
  ⟨by decide, by decide, by decide,
    (c6_unquoted_value_coercion "rx" "42" [] [] (by decide) (by decide) (by decide)).1⟩

/-! ## Claim C5 -/

/-- Family of combined correlator status records carrying the standard numeric
fields that the annotator's generated columns read. -/
def mkStatus (dt : String) (s : ℚ) (ln : Int) (rx tx rt : Int) (pm vm : ℚ) : Record :=
  [("datetime", .vStr dt), ("seconds", .vFloat s), ("line num", .vInt ln),
   ("rx", .vInt rx), ("tx", .vInt tx), ("rt", .vInt rt),
   ("pm", .vFloat pm), ("vm", .vFloat vm)]

/-- The column set `decideColumns` produces for a `mkStatus` record. -/
def c5columns : List (String × String) :=
  [("datetime", "datetime"), ("seconds", "seconds"), ("line num", "line num"),
   ("=rx /sec", "rx /sec"), ("=tx /sec", "tx /sec"), ("=rt /sec", "rt /sec"),
   ("rx", "rx=received"), ("tx", "tx=sent"), ("rt", "rt=routed"),
   ("pm", "pm=resident MB"), ("vm", "vm=virtual MB"),
   ("=pm delta MB", "pm delta MB"), ("=vm delta MB", "vm delta MB"),
   ("=jvm delta MB", "jvm delta MB")]

/-- Lookup into an annotation result; `none` when the annotation raised. -/
def annGet (res : Except String Record) (k : String) : Option Value :=
  match res with
  | .ok d => odGet d k
  | .error _ => none

set_option maxRecDepth 8000 in
set_option maxHeartbeats 1000000 in
/-- Claim C5 (confirmed): for records with the standard numeric fields,
`annotateStatus` sets each of the three rate columns to
`(record[x] - previous[x]) / (record.seconds - previous.seconds)`, and to the
int `0` whenever there is no previous record or the seconds delta is exactly
zero, so the division is only reached with a non-zero denominator and the
annotation never raises. -/
theorem c5_rate_columns (dt dt2 : String) (s ps : ℚ) (ln ln2 : Int)
    (rx tx rt prx ptx prt : Int) (pm vm ppm pvm : ℚ) :
    decideColumns (mkStatus dt s ln rx tx rt pm vm) = c5columns
    ∧ (annGet (annotateStatus (decideColumns (mkStatus dt s ln rx tx rt pm vm))
          (mkStatus dt s ln rx tx rt pm vm) none) "rx /sec" = some (.vInt 0)
      ∧ annGet (annotateStatus (decideColumns (mkStatus dt s ln rx tx rt pm vm))
          (mkStatus dt s ln rx tx rt pm vm) none) "tx /sec" = some (.vInt 0)
      ∧ annGet (annotateStatus (decideColumns (mkStatus dt s ln rx tx rt pm vm))
          (mkStatus dt s ln rx tx rt pm vm) none) "rt /sec" = some (.vInt 0))
    ∧ (s = ps →
        annGet (annotateStatus (decideColumns (mkStatus dt s ln rx tx rt pm vm))
          (mkStatus dt s ln rx tx rt pm vm)
          (some (mkStatus dt2 ps ln2 prx ptx prt ppm pvm))) "rx /sec" = some (.vInt 0)
      ∧ annGet (annotateStatus (decideColumns (mkStatus dt s ln rx tx rt pm vm))
          (mkStatus dt s ln rx tx rt pm vm)
          (some (mkStatus dt2 ps ln2 prx ptx prt ppm pvm))) "tx /sec" = some (.vInt 0)
      ∧ annGet (annotateStatus (decideColumns (mkStatus dt s ln rx tx rt pm vm))
          (mkStatus dt s ln rx tx rt pm vm)
          (some (mkStatus dt2 ps ln2 prx ptx prt ppm pvm))) "rt /sec" = some (.vInt 0))
    ∧ (s ≠ ps →
        annGet (annotateStatus (decideColumns (mkStatus dt s ln rx tx rt pm vm))
          (mkStatus dt s ln rx tx rt pm vm)
          (some (mkStatus dt2 ps ln2 prx ptx prt ppm pvm))) "rx /sec"
          = some (.vFloat (((rx : ℚ) - (prx : ℚ)) / (s - ps)))
      ∧ annGet (annotateStatus (decideColumns (mkStatus dt s ln rx tx rt pm vm))
          (mkStatus dt s ln rx tx rt pm vm)
          (some (mkStatus dt2 ps ln2 prx ptx prt ppm pvm))) "tx /sec"
          = some (.vFloat (((tx : ℚ) - (ptx : ℚ)) / (s - ps)))
      ∧ annGet (annotateStatus (decideColumns (mkStatus dt s ln rx tx rt pm vm))
          (mkStatus dt s ln rx tx rt pm vm)
          (some (mkStatus dt2 ps ln2 prx ptx prt ppm pvm))) "rt /sec"
          = some (.vFloat (((rt : ℚ) - (prt : ℚ)) / (s - ps)))) := by
  have hcols : decideColumns (mkStatus dt s ln rx tx rt pm vm) = c5columns := rfl
  refine ⟨hcols, ?_, ?_, ?_⟩
  · have heval : annotateStatus c5columns (mkStatus dt s ln rx tx rt pm vm) none
        = .ok [("datetime", .vStr dt), ("seconds", .vFloat s), ("line num", .vInt ln),
            ("rx /sec", .vInt 0), ("tx /sec", .vInt 0), ("rt /sec", .vInt 0),
            ("rx=received", .vInt rx), ("tx=sent", .vInt tx), ("rt=routed", .vInt rt),
            ("pm=resident MB", .vFloat (pm / 1024)), ("vm=virtual MB", .vFloat (vm / 1024)),
            ("pm delta MB", .vInt 0), ("vm delta MB", .vInt 0), ("jvm delta MB", .vInt 0)] := rfl
    rw [hcols, heval]
    exact ⟨rfl, rfl, rfl⟩
  · intro hsp
    rw [← hsp]
    have hpe : pyEq (Value.vFloat s) (Value.vFloat s) = true := by
      simp [pyEq, Value.toRat?]
    have heval : annotateStatus c5columns (mkStatus dt s ln rx tx rt pm vm)
        (some (mkStatus dt2 s ln2 prx ptx prt ppm pvm))
        = .ok [("datetime", .vStr dt), ("seconds", .vFloat s), ("line num", .vInt ln),
            ("rx /sec", .vInt 0), ("tx /sec", .vInt 0), ("rt /sec", .vInt 0),
            ("rx=received", .vInt rx), ("tx=sent", .vInt tx), ("rt=routed", .vInt rt),
            ("pm=resident MB", .vFloat (pm / 1024)), ("vm=virtual MB", .vFloat (vm / 1024)),
            ("pm delta MB", .vInt 0), ("vm delta MB", .vInt 0), ("jvm delta MB", .vInt 0)] := by
      simp only [annotateStatus, annotateVal, mkStatus, c5columns, getVal, getNum, vSubQ,
        Value.toRat?, List.foldlM_cons, List.foldlM_nil, ok_bind, pure_eq_ok, odGet_cons,
        odGet_nil, odSet_cons, odSet_nil, hpe, List.isPrefixOf, odKeys, List.map_cons,
        List.map_nil, String.reduceEq, Char.reduceEq, Char.reduceBEq, List.mem_cons,
        List.not_mem_nil, reduceCtorEq, decide_eq_true_eq, Option.getD_some, Option.getD_none,
        Bool.and_self, Bool.and_true, Bool.true_and, Bool.and_false, Bool.false_and,
        if_true, if_false, ite_true, ite_false, ne_eq, not_false_eq_true, not_true_eq_false,
        or_self, or_false, false_or, true_or, or_true, and_true, true_and, and_false, false_and]
    rw [hcols, heval]
    exact ⟨rfl, rfl, rfl⟩
  · intro hne
    have hpe : pyEq (Value.vFloat s) (Value.vFloat ps) = false := by
      simp [pyEq, Value.toRat?, hne]
    have heval : annotateStatus c5columns (mkStatus dt s ln rx tx rt pm vm)
        (some (mkStatus dt2 ps ln2 prx ptx prt ppm pvm))
        = .ok [("datetime", .vStr dt), ("seconds", .vFloat s), ("line num", .vInt ln),
            ("rx /sec", .vFloat (((rx : ℚ) - (prx : ℚ)) / (s - ps))),
            ("tx /sec", .vFloat (((tx : ℚ) - (ptx : ℚ)) / (s - ps))),
            ("rt /sec", .vFloat (((rt : ℚ) - (prt : ℚ)) / (s - ps))),
            ("rx=received", .vInt rx), ("tx=sent", .vInt tx), ("rt=routed", .vInt rt),
            ("pm=resident MB", .vFloat (pm / 1024)), ("vm=virtual MB", .vFloat (vm / 1024)),
            ("pm delta MB", .vFloat ((pm - ppm) / 1024)),
            ("vm delta MB", .vFloat ((vm - pvm) / 1024)),
            ("jvm delta MB", .vInt (-1))] := by
      simp only [annotateStatus, annotateVal, mkStatus, c5columns, getVal, getNum, vSubQ,
        Value.toRat?, List.foldlM_cons, List.foldlM_nil, ok_bind, pure_eq_ok, odGet_cons,
        odGet_nil, odSet_cons, odSet_nil, hpe, List.isPrefixOf, odKeys, List.map_cons,
        List.map_nil, String.reduceEq, Char.reduceEq, Char.reduceBEq, List.mem_cons,
        List.not_mem_nil, reduceCtorEq, decide_eq_true_eq, Option.getD_some, Option.getD_none,
        Bool.and_self, Bool.and_true, Bool.true_and, Bool.and_false, Bool.false_and,
        if_true, if_false, ite_true, ite_false, ne_eq, not_false_eq_true, not_true_eq_false,
        or_self, or_false, false_or, true_or, or_true, and_true, true_and, and_false, false_and]
    rw [hcols, heval]
    exact ⟨rfl, rfl, rfl⟩

/-- Witness for `c5_rate_columns` at the spec's example: seconds 10 → 20 with
`rx` 100 → 300 makes the rate column `(300-100)/(20-10) = 20.0`. -/
theorem c5_rate_columns_witness :
    ((20 : ℚ) ≠ (10 : ℚ))
    ∧ annGet (annotateStatus (decideColumns (mkStatus "d" 20 2 300 5 6 7 8))
        (mkStatus "d" 20 2 300 5 6 7 8) (some (mkStatus "c" 10 1 100 1 2 3 4))) "rx /sec"
      = some (.vFloat ((((300 : Int) : ℚ) - ((100 : Int) : ℚ)) / ((20 : ℚ) - (10 : ℚ))))
    ∧ (((300 : Int) : ℚ) - ((100 : Int) : ℚ)) / ((20 : ℚ) - (10 : ℚ)) = 20 := by
  have hne : (20 : ℚ) ≠ (10 : ℚ) := by norm_num
  exact ⟨hne,
    ((c5_rate_columns "d" "c" 20 10 2 1 300 5 6 100 1 2 7 8 3 4).2.2.2 hne).1,
    by norm_num⟩

/-! ## Claim C7 -/

/-- Two-column annotated record family: an int column `x` and a float column `y`. -/
def mkRow (a : Int) (b : ℚ) : Record := [("x", .vInt a), ("y", .vFloat b)]

/-- Shape of the summarizer state while a run of `mkRow` records is processed:
first record `(a1, b1)`, running min/max/sum per column, last record `(la, lb)`,
`n` samples, no snapshots yet. -/
def summSt (a1 : Int) (b1 : ℚ) (mnx mxx sx sy la : Int) (mny mxy lb : ℚ) (n : Nat) :
    SummState where
  status_min := some [("x", .vInt mnx), ("y", .vFloat mny)]
  status_max := some [("x", .vInt mxx), ("y", .vFloat mxy)]
  status_sum := some [("x", .vInt sx), ("y", .vInt sy)]
  status_0pc := some (mkRow a1 b1)
  status_25pc := none
  status_50pc := none
  status_75pc := none
  status_100pc := none
  laststatus := some (mkRow la lb)
  samples := n

theorem ok_ite {α : Type} {c : Prop} [Decidable c] (a b : α) :
    (if c then Except.ok a else Except.ok b) = (.ok (if c then a else b) : Except String α) := by
  by_cases h : c <;> simp [h]

theorem getNum_vInt (a : Int) : getNum (.vInt a) = .ok (a : ℚ) := rfl

theorem getNum_vFloat (q : ℚ) : getNum (.vFloat q) = .ok q := rfl

theorem if_lt_min {α : Type} [LinearOrder α] (m a : α) : (if a < m then a else m) = min m a := by
  rcases le_or_lt m a with h | h
  · rw [if_neg (not_lt.mpr h), min_eq_left h]
  · rw [if_pos h, min_eq_right h.le]

theorem if_lt_max {α : Type} [LinearOrder α] (m a : α) : (if m < a then a else m) = max m a := by
  rcases le_or_lt a m with h | h
  · rw [if_neg (not_lt.mpr h), max_eq_left h]
  · rw [if_pos h, max_eq_right h.le]

theorem ite_row1 {c : Prop} [Decidable c] (k k2 : String) (A B C : Value) :
    (if c then [(k, A), (k2, C)] else [(k, B), (k2, C)]) = [(k, if c then A else B), (k2, C)] := by
  by_cases h : c <;> simp [h]

theorem ite_row2 {c : Prop} [Decidable c] (k k2 : String) (A B C : Value) :
    (if c then [(k, C), (k2, A)] else [(k, C), (k2, B)]) = [(k, C), (k2, if c then A else B)] := by
  by_cases h : c <;> simp [h]

theorem ite_vInt {c : Prop} [Decidable c] (a b : Int) :
    (if c then Value.vInt a else Value.vInt b) = Value.vInt (if c then a else b) := by
  by_cases h : c <;> simp [h]

theorem ite_vFloat {c : Prop} [Decidable c] (a b : ℚ) :
    (if c then Value.vFloat a else Value.vFloat b) = Value.vFloat (if c then a else b) := by
  by_cases h : c <;> simp [h]

theorem statStep_x (a1 : Int) (b1 : ℚ) (mnx mxx sx sy : Int) (mny mxy : ℚ) (a : Int) :
    statStep (some (mkRow a1 b1))
      (some [("x", .vInt mxx), ("y", .vFloat mxy)],
       some [("x", .vInt mnx), ("y", .vFloat mny)],
       some [("x", .vInt sx), ("y", .vInt sy)]) ("x", .vInt a)
    = .ok (some [("x", .vInt (max mxx a)), ("y", .vFloat mxy)],
           some [("x", .vInt (min mnx a)), ("y", .vFloat mny)],
           some [("x", .vInt (sx + a)), ("y", .vInt sy)]) := by
  by_cases h3 : a = 0
  · subst h3
    simp only [statStep, getRec, getVal, getNum, pyGT, pyLT, pyNe0, vAdd, Value.toRat?,
      Value.isFloat, mkRow, odGet_cons, odGet_nil, odSet_cons, odSet_nil, ok_bind, pure_eq_ok,
      String.reduceEq, decide_eq_true_eq, reduceCtorEq, if_true, if_false, ite_true, ite_false,
      ne_eq, not_true_eq_false, not_false_eq_true, decide_False, decide_True]
    rw [ite_row1, ite_row1, ite_vInt, ite_vInt, if_lt_max, if_lt_min]
    simp
  · simp only [statStep, getRec, getVal, getNum, pyGT, pyLT, pyNe0, vAdd, Value.toRat?,
      Value.isFloat, mkRow, odGet_cons, odGet_nil, odSet_cons, odSet_nil, ok_bind, pure_eq_ok,
      String.reduceEq, decide_eq_true_eq, reduceCtorEq, if_true, if_false, ite_true, ite_false,
      ne_eq, h3, not_false_eq_true, decide_True]
    rw [ite_row1, ite_row1, ite_vInt, ite_vInt, if_lt_max, if_lt_min]

theorem statStep_y (a1 : Int) (b1 : ℚ) (mnx mxx sx sy : Int) (mny mxy : ℚ) (b : ℚ) :
    statStep (some (mkRow a1 b1))
      (some [("x", .vInt mxx), ("y", .vFloat mxy)],
       some [("x", .vInt mnx), ("y", .vFloat mny)],
       some [("x", .vInt sx), ("y", .vInt sy)]) ("y", .vFloat b)
    = .ok (some [("x", .vInt mxx), ("y", .vFloat (max mxy b))],
           some [("x", .vInt mnx), ("y", .vFloat (min mny b))],
           some [("x", .vInt sx), ("y", .vInt (sy + pyTrunc (100000 * b)))]) := by
  by_cases h3 : b = 0
  · subst h3
    simp only [statStep, getRec, getVal, getNum, pyGT, pyLT, pyNe0, vAdd, Value.toRat?,
      Value.isFloat, mkRow, odGet_cons, odGet_nil, odSet_cons, odSet_nil, ok_bind, pure_eq_ok,
      String.reduceEq, decide_eq_true_eq, reduceCtorEq, if_true, if_false, ite_true, ite_false,
      ne_eq, not_true_eq_false, not_false_eq_true, decide_False, decide_True, eq_self_iff_true,
      getNum_vFloat]
    rw [ite_row2, ite_row2, ite_vFloat, ite_vFloat, if_lt_max, if_lt_min]
    simp [pyTrunc]
  · simp only [statStep, getRec, getVal, getNum, pyGT, pyLT, pyNe0, vAdd, Value.toRat?,
      Value.isFloat, mkRow, odGet_cons, odGet_nil, odSet_cons, odSet_nil, ok_bind, pure_eq_ok,
      String.reduceEq, decide_eq_true_eq, reduceCtorEq, if_true, if_false, ite_true, ite_false,
      ne_eq, h3, not_false_eq_true, decide_True, eq_self_iff_true, getNum_vFloat]
    rw [ite_row2, ite_row2, ite_vFloat, ite_vFloat, if_lt_max, if_lt_min]

theorem handleAnnotated_step (a1 : Int) (b1 : ℚ) (mnx mxx sx sy la : Int) (mny mxy lb : ℚ)
    (n : Nat) (a : Int) (b : ℚ) :
    handleAnnotatedStatus (summSt a1 b1 mnx mxx sx sy la mny mxy lb n) (mkRow a b)
      = .ok (summSt a1 b1 (min mnx a) (max mxx a) (sx + a) (sy + pyTrunc (100000 * b)) a
          (min mny b) (max mxy b) b (n + 1)) := by
  unfold handleAnnotatedStatus
  rw [show (summSt a1 b1 mnx mxx sx sy la mny mxy lb n).laststatus = some (mkRow la lb) from rfl]
  simp only [reduceCtorEq, if_false, ite_false]
  rw [show (mkRow a b) = [("x", Value.vInt a), ("y", Value.vFloat b)] from rfl]
  rw [List.foldlM_cons]
  rw [show (summSt a1 b1 mnx mxx sx sy la mny mxy lb n).status_0pc = some (mkRow a1 b1) from rfl,
      show (summSt a1 b1 mnx mxx sx sy la mny mxy lb n).status_max
        = some [("x", Value.vInt mxx), ("y", Value.vFloat mxy)] from rfl,
      show (summSt a1 b1 mnx mxx sx sy la mny mxy lb n).status_min
        = some [("x", Value.vInt mnx), ("y", Value.vFloat mny)] from rfl,
      show (summSt a1 b1 mnx mxx sx sy la mny mxy lb n).status_sum
        = some [("x", Value.vInt sx), ("y", Value.vInt sy)] from rfl]
  rw [statStep_x, ok_bind, List.foldlM_cons, statStep_y, ok_bind, List.foldlM_nil]
  rfl

theorem handleAnnotated_first (a : Int) (b : ℚ) :
    handleAnnotatedStatus handleFileStarted (mkRow a b)
      = .ok (summSt a b a a a (pyTrunc (100000 * b)) a b b b 1) := by
  unfold handleAnnotatedStatus handleFileStarted
  simp only [ite_true, if_true]
  rw [show (mkRow a b) = [("x", Value.vInt a), ("y", Value.vFloat b)] from rfl]
  simp only [List.foldl_cons, List.foldl_nil, odSet_cons, odSet_nil, String.reduceEq,
    if_false, ite_false, reduceCtorEq]
  rw [List.foldlM_cons]
  have hx := statStep_x a b a a 0 0 b b a
  rw [show (mkRow a b) = [("x", Value.vInt a), ("y", Value.vFloat b)] from rfl] at hx
  rw [hx, ok_bind, List.foldlM_cons]
  have hy := statStep_y a b (min a a) (max a a) (0 + a) 0 b b b
  rw [show (mkRow a b) = [("x", Value.vInt a), ("y", Value.vFloat b)] from rfl] at hy
  rw [hy, ok_bind, List.foldlM_nil]
  simp [summSt, mkRow, min_self, max_self]

theorem foldAnnotated (ps : List (Int × ℚ)) :
    ∀ (a1 : Int) (b1 : ℚ) (mnx mxx sx sy la : Int) (mny mxy lb : ℚ) (n : Nat),
    List.foldlM handleAnnotatedStatus (summSt a1 b1 mnx mxx sx sy la mny mxy lb n)
        (ps.map (fun p => mkRow p.1 p.2))
      = .ok (summSt a1 b1
          (ps.foldl (fun m p => min m p.1) mnx)
          (ps.foldl (fun m p => max m p.1) mxx)
          (sx + (ps.map Prod.fst).sum)
          (sy + (ps.map (fun p => pyTrunc (100000 * p.2))).sum)
          (ps.foldl (fun _ p => p.1) la)
          (ps.foldl (fun m p => min m p.2) mny)
          (ps.foldl (fun m p => max m p.2) mxy)
          (ps.foldl (fun _ p => p.2) lb)
          (n + ps.length)) := by
  induction ps with
  | nil =>
    intro a1 b1 mnx mxx sx sy la mny mxy lb n
    simp
  | cons p rest ih =>
    intro a1 b1 mnx mxx sx sy la mny mxy lb n
    simp only [List.map_cons, List.foldlM_cons]
    rw [handleAnnotated_step, ok_bind, ih]
    simp only [List.foldl_cons, List.map_cons, List.sum_cons, List.length_cons]
    rw [add_assoc sx, add_assoc sy]
    rw [show n + 1 + rest.length = n + (rest.length + 1) from by omega]

theorem calcmean_x (SX SY a1 : Int) (b1 : ℚ) (n : Nat) (hn : ¬ n = 0) :
    calcmean [("x", .vInt SX), ("y", .vInt SY)] (mkRow a1 b1) n "x"
      = .ok (if (SX : ℚ) / (n : ℚ) = 0 then Value.vInt 0
          else if 1000 < |(SX : ℚ) / (n : ℚ)| then Value.vInt (pyTrunc ((SX : ℚ) / (n : ℚ)))
          else Value.vFloat ((SX : ℚ) / (n : ℚ))) := by
  unfold calcmean
  simp only [getVal, getNum, odGet_cons, odGet_nil, mkRow, String.reduceEq, if_true, if_false,
    ite_true, ite_false, Value.toRat?, Value.isFloat, Value.isStr, Value.isIntLike, ok_bind,
    pure_eq_ok, reduceCtorEq, Option.getD_some, hn, Bool.false_eq_true, or_self, or_false,
    false_or, and_true, ne_eq, not_false_eq_true]
  simp only [ok_ite]

theorem calcmean_y (SX SY a1 : Int) (b1 : ℚ) (n : Nat) (hn : ¬ n = 0) :
    calcmean [("x", .vInt SX), ("y", .vInt SY)] (mkRow a1 b1) n "y"
      = .ok (if (SY : ℚ) / 100000 / (n : ℚ) = 0 then Value.vInt 0
          else Value.vFloat ((SY : ℚ) / 100000 / (n : ℚ))) := by
  unfold calcmean
  simp only [getVal, getNum, odGet_cons, odGet_nil, mkRow, String.reduceEq, if_true, if_false,
    ite_true, ite_false, Value.toRat?, Value.isFloat, Value.isStr, Value.isIntLike, ok_bind,
    pure_eq_ok, reduceCtorEq, Option.getD_some, hn, Bool.false_eq_true, or_self, or_false,
    false_or, and_false, ne_eq, not_false_eq_true]
  simp only [ok_ite]

/-- Display adjustment the code applies to the mean of an int-first column:
means of magnitude over 1000 are truncated toward zero for display. -/
def meanShownInt (x : ℚ) : ℚ := if 1000 < |x| then ((pyTrunc x : Int) : ℚ) else x

theorem meanX_toRat (x : ℚ) :
    (if x = 0 then Value.vInt 0
      else if 1000 < |x| then Value.vInt (pyTrunc x)
      else Value.vFloat x).toRat? = some (meanShownInt x) := by
  by_cases h0 : x = 0
  · subst h0
    have h : ¬ (1000 : ℚ) < 0 := by norm_num
    simp [meanShownInt, Value.toRat?, abs_zero, h]
  · by_cases hb : 1000 < |x|
    · simp [meanShownInt, Value.toRat?, h0, hb]
    · simp [meanShownInt, Value.toRat?, h0, hb]

theorem meanY_toRat (y : ℚ) :
    (if y = 0 then Value.vInt 0 else Value.vFloat y).toRat? = some y := by
  by_cases h0 : y = 0
  · subst h0
    simp [Value.toRat?]
  · simp [Value.toRat?, h0]

theorem summ_complete (a1 la : Int) (b1 lb : ℚ) (mnx mxx sx sy : Int) (mny mxy : ℚ) (n : Nat)
    (hn : ¬ n < 2) :
    handleFilePercentComplete (summSt a1 b1 mnx mxx sx sy la mny mxy lb n) 100
      = ({ summSt a1 b1 mnx mxx sx sy la mny mxy lb n with
            status_25pc := some (mkRow la lb)
            status_50pc := some (mkRow la lb)
            status_75pc := some (mkRow la lb)
            status_100pc := some (mkRow la lb) },
         .ok (some [
            ("0% (start)", some (mkRow a1 b1)),
            ("25%", some (mkRow la lb)),
            ("50%", some (mkRow la lb)),
            ("75%", some (mkRow la lb)),
            ("100% (end)", some (mkRow la lb)),
            ("", none),
            ("min", some [("x", .vInt mnx), ("y", .vFloat mny)]),
            ("mean", some [("x", if (sx : ℚ) / (n : ℚ) = 0 then Value.vInt 0
                else if 1000 < |(sx : ℚ) / (n : ℚ)| then Value.vInt (pyTrunc ((sx : ℚ) / (n : ℚ)))
                else Value.vFloat ((sx : ℚ) / (n : ℚ))),
              ("y", if (sy : ℚ) / 100000 / (n : ℚ) = 0 then Value.vInt 0
                else Value.vFloat ((sy : ℚ) / 100000 / (n : ℚ)))]),
            ("max", some [("x", .vInt mxx), ("y", .vFloat mxy)])])) := by
  have hn0 : ¬ n = 0 := by omega
  have h1 : handleFilePercentComplete (summSt a1 b1 mnx mxx sx sy la mny mxy lb n) 100
      = ({ summSt a1 b1 mnx mxx sx sy la mny mxy lb n with
            status_25pc := some (mkRow la lb)
            status_50pc := some (mkRow la lb)
            status_75pc := some (mkRow la lb)
            status_100pc := some (mkRow la lb) },
         handleFileComplete { summSt a1 b1 mnx mxx sx sy la mny mxy lb n with
            status_25pc := some (mkRow la lb)
            status_50pc := some (mkRow la lb)
            status_75pc := some (mkRow la lb)
            status_100pc := some (mkRow la lb) }) := by
    unfold handleFilePercentComplete
    norm_num [summSt, pyOrRec]
  rw [h1]
  unfold handleFileComplete
  rw [if_neg (by simpa [summSt, mkRow, pyFalsyRec] using hn)]
  simp only [summSt, getRec, ok_bind, List.foldlM_cons, List.foldlM_nil]
  rw [calcmean_x sx sy a1 b1 n hn0, calcmean_y sx sy a1 b1 n hn0]
  simp only [pure_eq_ok, ok_bind, odSet_nil, odSet_cons, String.reduceEq, if_false, ite_false,
    List.map_cons, List.map_nil, numberOrEmpty, mkRow]

theorem runSummarizer_eq (records : List Record) (st st2 : SummState) (rows : SummaryRows)
    (h1 : List.foldlM handleAnnotatedStatus handleFileStarted records = .ok st)
    (h2 : handleFilePercentComplete st 100 = (st2, .ok (some rows))) :
    runSummarizer records = .ok (st2, some rows) := by
  unfold runSummarizer
  rw [h1]
  simp only [ok_bind]
  rw [h2]
  rfl

set_option maxHeartbeats 1000000 in
/-- Claim C7 (amended): for a file of records with an int column `x` and a float
column `y`, the summary reports min and max as the minimum and maximum of each
column's values; the mean of the float column is the per-sample truncated scaled
sum `int(100000*v)` divided back by 100000 and then by the sample count; the
mean of the int column is the sum divided by the sample count, except that when
its magnitude exceeds 1000 it is truncated toward zero to an int for display
(`meanShownInt`). -/
theorem c7_min_max_mean (a1 : Int) (b1 : ℚ) (ps : List (Int × ℚ)) (hne : ps ≠ []) :
    ∃ st rows,
      runSummarizer (((a1, b1) :: ps).map (fun p => mkRow p.1 p.2)) = .ok (st, some rows)
      ∧ lookupRow rows "min"
          = some (some [("x", .vInt (ps.foldl (fun m p => min m p.1) a1)),
              ("y", .vFloat (ps.foldl (fun m p => min m p.2) b1))])
      ∧ lookupRow rows "max"
          = some (some [("x", .vInt (ps.foldl (fun m p => max m p.1) a1)),
              ("y", .vFloat (ps.foldl (fun m p => max m p.2) b1))])
      ∧ (∃ meanRow, lookupRow rows "mean" = some (some meanRow)
          ∧ (odGet meanRow "x").bind Value.toRat?
              = some (meanShownInt (((a1 + (ps.map Prod.fst).sum : Int) : ℚ)
                  / ((1 + ps.length : Nat) : ℚ)))
          ∧ (odGet meanRow "y").bind Value.toRat?
              = some ((((pyTrunc (100000 * b1)
                    + (ps.map (fun p => pyTrunc (100000 * p.2))).sum : Int) : ℚ) / 100000)
                  / ((1 + ps.length : Nat) : ℚ))) := by
  have hlen : ¬ (1 + ps.length) < 2 := by
    have : ps.length ≠ 0 := fun h => hne (List.length_eq_zero.mp h)
    omega
  have hfold : List.foldlM handleAnnotatedStatus handleFileStarted
      (((a1, b1) :: ps).map (fun p => mkRow p.1 p.2))
      = .ok (summSt a1 b1
          (ps.foldl (fun m p => min m p.1) a1)
          (ps.foldl (fun m p => max m p.1) a1)
          (a1 + (ps.map Prod.fst).sum)
          (pyTrunc (100000 * b1) + (ps.map (fun p => pyTrunc (100000 * p.2))).sum)
          (ps.foldl (fun _ p => p.1) a1)
          (ps.foldl (fun m p => min m p.2) b1)
          (ps.foldl (fun m p => max m p.2) b1)
          (ps.foldl (fun _ p => p.2) b1)
          (1 + ps.length)) := by
    rw [List.map_cons, List.foldlM_cons, handleAnnotated_first, ok_bind, foldAnnotated]
  have hsc := summ_complete a1 (ps.foldl (fun _ p => p.1) a1) b1 (ps.foldl (fun _ p => p.2) b1)
      (ps.foldl (fun m p => min m p.1) a1) (ps.foldl (fun m p => max m p.1) a1)
      (a1 + (ps.map Prod.fst).sum)
      (pyTrunc (100000 * b1) + (ps.map (fun p => pyTrunc (100000 * p.2))).sum)
      (ps.foldl (fun m p => min m p.2) b1) (ps.foldl (fun m p => max m p.2) b1)
      (1 + ps.length) hlen
  refine ⟨_, _, runSummarizer_eq _ _ _ _ hfold hsc, ?_, ?_, ?_⟩
  · rfl
  · rfl
  · refine ⟨_, rfl, ?_, ?_⟩
    · simp only [odGet_cons, String.reduceEq, if_true, ite_true, Option.some_bind]
      exact meanX_toRat _
    · simp only [odGet_cons, String.reduceEq, if_true, ite_true, if_false, ite_false,
        Option.some_bind]
      exact meanY_toRat _

/-- Cell lookup in a completed run's summary table: row label then column key. -/
def summaryCell (records : List Record) (row k : String) : Option Value :=
  match runSummarizer records with
  | .ok (_, some rows) =>
    match lookupRow rows row with
    | some (some r) => odGet r k
    | _ => none
  | _ => none

/-- Claim C7 counterexample: for the int column values 1000 and 1003 the true
mean is 1001.5, but the summary's mean row shows the int 1001. -/
theorem c7_mean_counterexample :
    summaryCell [mkRow 1000 0, mkRow 1003 0] "mean" "x" = some (.vInt 1001)
    ∧ (1000 + 1003 : ℚ) / 2 ≠ (1001 : ℚ) := by
  constructor
  · with_unfolding_all rfl
  · norm_num

theorem c7_min_max_mean_witness :
    (([((10 : Int), (0 : ℚ)), ((15 : Int), (0 : ℚ))] : List (Int × ℚ)) ≠ [])
    ∧ (∃ st rows,
      runSummarizer ((((5 : Int), (0 : ℚ)) :: [((10 : Int), (0 : ℚ)), ((15 : Int), (0 : ℚ))]).map
          (fun p => mkRow p.1 p.2)) = .ok (st, some rows)
      ∧ lookupRow rows "min"
          = some (some [("x", .vInt ([((10 : Int), (0 : ℚ)), ((15 : Int), (0 : ℚ))].foldl
                (fun m p => min m p.1) 5)),
              ("y", .vFloat ([((10 : Int), (0 : ℚ)), ((15 : Int), (0 : ℚ))].foldl
                (fun m p => min m p.2) 0))])
      ∧ lookupRow rows "max"
          = some (some [("x", .vInt ([((10 : Int), (0 : ℚ)), ((15 : Int), (0 : ℚ))].foldl
                (fun m p => max m p.1) 5)),
              ("y", .vFloat ([((10 : Int), (0 : ℚ)), ((15 : Int), (0 : ℚ))].foldl
                (fun m p => max m p.2) 0))])
      ∧ (∃ meanRow, lookupRow rows "mean" = some (some meanRow)
          ∧ (odGet meanRow "x").bind Value.toRat?
              = some (meanShownInt (((5 + ([((10 : Int), (0 : ℚ)), ((15 : Int), (0 : ℚ))].map
                    Prod.fst).sum : Int) : ℚ)
                  / ((1 + ([((10 : Int), (0 : ℚ)), ((15 : Int), (0 : ℚ))]).length : Nat) : ℚ)))
          ∧ (odGet meanRow "y").bind Value.toRat?
              = some ((((pyTrunc (100000 * 0)
                    + ([((10 : Int), (0 : ℚ)), ((15 : Int), (0 : ℚ))].map
                      (fun p => pyTrunc (100000 * p.2))).sum : Int) : ℚ) / 100000)
                  / ((1 + ([((10 : Int), (0 : ℚ)), ((15 : Int), (0 : ℚ))]).length : Nat) : ℚ)))) :=
  ⟨by decide, c7_min_max_mean 5 0 [(10, 0), (15, 0)] (by decide)⟩

/-! ## Claim C9 -/

/-- Display-name key list an annotated record gets from a column list: one key
per distinct display name, in first-appearance order. -/
def annKeys (cols : List (String × String)) : List String :=
  cols.foldl (fun ks p => if p.2 ∈ ks then ks else ks ++ [p.2]) []

theorem annotate_fold_keys (status : Record) (po : Option Record) (seconds : Value) :
    ∀ (cols : List (String × String)) (d0 out : Record),
      List.foldlM (fun d p => do
        let v ← annotateVal status po seconds p.1 p.2
        pure (odSet d p.2 v)) d0 cols = .ok out →
      odKeys out = cols.foldl (fun ks p => if p.2 ∈ ks then ks else ks ++ [p.2]) (odKeys d0) := by
  intro cols
  induction cols with
  | nil =>
    intro d0 out h
    simp only [List.foldlM_nil, pure_eq_ok, Except.ok.injEq] at h
    rw [← h]
    simp
  | cons c cols ih =>
    intro d0 out h
    rw [List.foldlM_cons] at h
    cases hv : annotateVal status po seconds c.1 c.2 with
    | error e =>
      rw [hv] at h
      simp at h
    | ok v =>
      rw [hv] at h
      simp only [ok_bind, pure_eq_ok] at h
      rw [List.foldl_cons, ih _ _ h, odKeys_odSet]

theorem annotateStatus_keys {cols : List (String × String)} {status : Record}
    {po : Option Record} {out : Record} (h : annotateStatus cols status po = .ok out) :
    odKeys out = annKeys cols := by
  unfold annotateStatus at h
  cases hs : getVal status "seconds" with
  | error e =>
    rw [hs] at h
    simp at h
  | ok seconds =>
    rw [hs, ok_bind] at h
    have := annotate_fold_keys status po seconds cols [] out h
    simpa [annKeys, odKeys] using this

theorem handleStatusDict_ok_columns {st : AnnotatorState} {cols : List (String × String)}
    (hc : st.columns = some cols) {r : Record} {st2 : AnnotatorState} {out : Record}
    (h : handleStatusDict st r = .ok (st2, out)) :
    st2.columns = some cols ∧ odKeys out = annKeys cols := by
  unfold handleStatusDict at h
  rw [hc] at h
  have h2 : (match annotateStatus cols r st.previousStatus with
      | Except.error e => (Except.error e : Except String (AnnotatorState × Record))
      | Except.ok annotated =>
        Except.ok ({ previousStatus := some (odUpdate r annotated), columns := some cols }, annotated))
      = Except.ok (st2, out) := h
  cases ha : annotateStatus cols r st.previousStatus with
  | error e =>
    rw [ha] at h2
    cases h2
  | ok ann =>
    rw [ha] at h2
    cases h2
    exact ⟨rfl, annotateStatus_keys ha⟩

theorem runAnnotator_inv (rs : List Record) :
    ∀ (st : AnnotatorState) (cols : List (String × String)), st.columns = some cols →
      (∀ out ∈ (runAnnotator st rs).1, odKeys out = annKeys cols)
      ∧ (∀ st2, (runAnnotator st rs).2 = .ok st2 → st2.columns = some cols) := by
  induction rs with
  | nil =>
    intro st cols hc
    refine ⟨by simp [runAnnotator], fun st2 h => ?_⟩
    simp only [runAnnotator, Except.ok.injEq] at h
    rw [← h]
    exact hc
  | cons r rs ih =>
    intro st cols hc
    cases hh : handleStatusDict st r with
    | error e =>
      constructor
      · intro o ho
        simp only [runAnnotator, hh] at ho
        simp at ho
      · intro st2 h
        simp only [runAnnotator, hh] at h
        simp at h
    | ok pr =>
      obtain ⟨st2, out⟩ := pr
      have hcols2 := handleStatusDict_ok_columns hc hh
      obtain ⟨ih1, ih2⟩ := ih st2 cols hcols2.1
      have hstep : runAnnotator st (r :: rs)
          = (out :: (runAnnotator st2 rs).1, (runAnnotator st2 rs).2) := by
        simp only [runAnnotator, hh]
      rw [hstep]
      constructor
      · intro o ho
        rcases List.mem_cons.mp ho with ho | ho
        · rw [ho]
          exact hcols2.2
        · exact ih1 o ho
      · exact ih2

/-- Claim C9 (confirmed): `fileStarted` resets the annotator to an undecided
column set; for every non-empty sequence of combined records processed after the
file start, the column set in use is `decideColumns` of the first record, every
published annotated record of the file is keyed by exactly the display keys that
column set determines, and the state's column set never changes mid-file. -/
theorem c9_columns_frozen_per_file (r : Record) (rs : List Record) :
    (∀ st : AnnotatorState, fileStarted st = ⟨none, none⟩)
    ∧ (∀ out ∈ (runAnnotator ⟨none, none⟩ (r :: rs)).1,
        odKeys out = annKeys (decideColumns r))
    ∧ (∀ st2, (runAnnotator ⟨none, none⟩ (r :: rs)).2 = .ok st2 →
        st2.columns = some (decideColumns r)) := by
  refine ⟨fun _ => rfl, ?_⟩
  cases hh : handleStatusDict ⟨none, none⟩ r with
  | error e =>
    constructor
    · intro o ho
      simp only [runAnnotator, hh] at ho
      simp at ho
    · intro st2 h
      simp only [runAnnotator, hh] at h
      simp at h
  | ok pr =>
    obtain ⟨st2, out⟩ := pr
    have hcols2 : st2.columns = some (decideColumns r) ∧ odKeys out = annKeys (decideColumns r) := by
      have h2 : (match annotateStatus (decideColumns r) r (none : Option Record) with
          | Except.error e => (Except.error e : Except String (AnnotatorState × Record))
          | Except.ok annotated =>
            Except.ok
              ({ previousStatus := some (odUpdate r annotated)
                 columns := some (decideColumns r) }, annotated))
          = Except.ok (st2, out) := hh
      cases ha : annotateStatus (decideColumns r) r (none : Option Record) with
      | error e =>
        rw [ha] at h2
        cases h2
      | ok ann =>
        rw [ha] at h2
        cases h2
        exact ⟨rfl, annotateStatus_keys ha⟩
    obtain ⟨ih1, ih2⟩ := runAnnotator_inv rs st2 (decideColumns r) hcols2.1
    have hstep : runAnnotator ⟨none, none⟩ (r :: rs)
        = (out :: (runAnnotator st2 rs).1, (runAnnotator st2 rs).2) := by
      simp only [runAnnotator, hh]
    rw [hstep]
    constructor
    · intro o ho
      rcases List.mem_cons.mp ho with ho | ho
      · rw [ho]
        exact hcols2.2
      · exact ih1 o ho
    · exact ih2

set_option maxRecDepth 8000 in
/-- Witness for `c9_columns_frozen_per_file`: a one-record file computed
concretely; the final state's column set is the one decided from that record. -/
theorem c9_columns_frozen_per_file_witness :
    ∃ st2, (runAnnotator ⟨none, none⟩
        [[("datetime", Value.vStr "d"), ("seconds", Value.vFloat 10), ("line num", Value.vInt 1),
          ("rx", Value.vInt 1), ("tx", Value.vInt 2), ("rt", Value.vInt 3)]]).2 = .ok st2
      ∧ st2.columns = some (decideColumns
          [("datetime", Value.vStr "d"), ("seconds", Value.vFloat 10), ("line num", Value.vInt 1),
           ("rx", Value.vInt 1), ("tx", Value.vInt 2), ("rt", Value.vInt 3)]) := by
  obtain ⟨st2, h1⟩ : ∃ st2, (runAnnotator ⟨none, none⟩
      [[("datetime", Value.vStr "d"), ("seconds", Value.vFloat 10), ("line num", Value.vInt 1),
        ("rx", Value.vInt 1), ("tx", Value.vInt 2), ("rt", Value.vInt 3)]]).2 = .ok st2 :=
    ⟨_, rfl⟩
  exact ⟨st2, h1, (c9_columns_frozen_per_file _ []).2.2 st2 h1⟩

/-- Witness for `c4_primary_wins_on_collision` at concrete records. -/
theorem c4_primary_wins_on_collision_witness :
    (odKeys [("s", Value.vFloat 10), ("a", Value.vStr "p")]).Nodup
    ∧ (statusDictMachine ⟨none, some [("s", Value.vFloat 10), ("a", Value.vStr "p")]⟩ .jms
          [("s", Value.vFloat 20), ("b", Value.vStr "q")]
        = .ok (⟨some true, none⟩,
            [odUpdate [("s", Value.vFloat 20), ("b", Value.vStr "q")]
              [("s", Value.vFloat 10), ("a", Value.vStr "p")]])
      ∧ (∀ k ∈ odKeys [("s", Value.vFloat 10), ("a", Value.vStr "p")],
          odGet (odUpdate [("s", Value.vFloat 20), ("b", Value.vStr "q")]
            [("s", Value.vFloat 10), ("a", Value.vStr "p")]) k
          = odGet [("s", Value.vFloat 10), ("a", Value.vStr "p")] k)
      ∧ (∀ k, k ∉ odKeys [("s", Value.vFloat 10), ("a", Value.vStr "p")] →
          odGet (odUpdate [("s", Value.vFloat 20), ("b", Value.vStr "q")]
            [("s", Value.vFloat 10), ("a", Value.vStr "p")]) k
          = odGet [("s", Value.vFloat 20), ("b", Value.vStr "q")] k)) :=
  ⟨by decide, c4_primary_wins_on_collision _ _ (by decide)⟩

end LogAnalyzer
